import Mathlib

/-!
Shallow embedding of the ClusterGate check resolution, scheduling and
aggregation engine, together with theorems settling the frozen claims.

Sources embedded (Go → Lean):
- `internal/controller/resolver.go` — `ResolveChecks`, `resolveProfileCheckRef`,
  `resolveInlineCheck`, `mergeOverrides`, `ResolveSeverityAndCategory`.
- the scheduler (`CheckSchedule`, `shortestInterval`).
- `internal/controller/clusterreadiness_controller.go` — the current `Reconcile`
  body (resolution-failure branch, scheduling, result/carry merging,
  `aggregateCheck`, category building, health-state computation, status update)
  and `runBuiltinCheck`.
- the `/readyz` HTTP handler and `filterSnapshot` of the server package.

Modelling conventions: `time.Duration` and `time.Time` become `Int`
(nanoseconds); Go `nil`-able fields become `Option`; Go string zero values
become `""`; Go maps become association lists with insert-overwrite and
delete, which preserves exactly the lookup semantics the code relies on;
fallible resolution returns `Except String`. Check execution and the
Kubernetes client are I/O and enter as explicit function parameters
(`db` for profile fetches, `exec` for running a due check).
-/

namespace ClusterGate

/-- Default interval (60s) in nanoseconds, mirroring `defaultInterval = 60 * time.Second`. -/
def defaultInterval : Int := 60 * 1000000000

/-- CheckStatus mirrors the per-check status row of the CRD
(`{Name, Source, Status, Severity, Message, LastChecked}`); field defaults
are the Go zero values. -/
structure CheckStatus where
  name : String := ""
  source : String := ""
  status : String := ""
  severity : String := ""
  message : String := ""
  lastChecked : Option Int := none
deriving Repr, DecidableEq

/-- ResolvedCheck mirrors `controller.ResolvedCheck`. -/
structure ResolvedCheck where
  identifier : String := ""
  isBuiltin : Bool := false
  builtinName : String := ""
  gateCheckName : String := ""
  severity : String := ""
  category : String := ""
  interval : Int := 0
  config : Option String := none
  source : String := ""
deriving Repr, DecidableEq

/-- Association-list insert with overwrite, modelling Go `m[k] = v`. -/
def mapInsert {α : Type} (m : List (String × α)) (k : String) (v : α) : List (String × α) :=
  match m with
  | [] => [(k, v)]
  | (k1, v1) :: rest => if k1 = k then (k, v) :: rest else (k1, v1) :: mapInsert rest k v

/-- Association-list delete, modelling Go `delete(m, k)`. -/
def mapDelete {α : Type} (m : List (String × α)) (k : String) : List (String × α) :=
  match m with
  | [] => []
  | (k1, v1) :: rest => if k1 = k then mapDelete rest k else (k1, v1) :: mapDelete rest k

/-- Association-list lookup, modelling Go `m[k]`. -/
def mapLookup {α : Type} (m : List (String × α)) (k : String) : Option α :=
  match m with
  | [] => none
  | (k1, v1) :: rest => if k1 = k then some v1 else mapLookup rest k

/-- Status map built by `for _, s := range existingStatuses { statusMap[s.Name] = s }`
(a later row with the same name overwrites an earlier one, as in a Go map). -/
def buildStatusMap (existing : List CheckStatus) : List (String × CheckStatus) :=
  existing.foldl (fun m s => mapInsert m s.name s) []

/-- Loop body of `CheckSchedule`: walks the resolved checks accumulating
`due`, `carried` and the running minimum `nextRequeue` exactly as the Go
`for` loop does. -/
def schedLoop (m : List (String × CheckStatus)) (now : Int) :
    List ResolvedCheck → List ResolvedCheck → List CheckStatus → Int →
    List ResolvedCheck × List CheckStatus × Int
  | [], due, carried, nextRequeue => (due, carried, nextRequeue)
  | rc :: rest, due, carried, nextRequeue =>
    match mapLookup m rc.identifier with
    | none => schedLoop m now rest (due ++ [rc]) carried nextRequeue
    | some existing =>
      match existing.lastChecked with
      | none => schedLoop m now rest (due ++ [rc]) carried nextRequeue
      | some lc =>
        if rc.interval ≤ now - lc then
          schedLoop m now rest (due ++ [rc]) carried nextRequeue
        else
          schedLoop m now rest due (carried ++ [existing])
            (if nextRequeue = 0 ∨ rc.interval - (now - lc) < nextRequeue then
              rc.interval - (now - lc)
            else nextRequeue)

/-- Mirrors `shortestInterval`: the shortest interval of a non-empty resolved
list, `defaultInterval` for an empty one. -/
def shortestInterval : List ResolvedCheck → Int
  | [] => defaultInterval
  | c :: rest => rest.foldl (fun s rc => if rc.interval < s then rc.interval else s) c.interval

/-- Mirrors `CheckSchedule`: partitions resolved checks into due and carried
and computes the next requeue delay. -/
def checkSchedule (resolved : List ResolvedCheck) (existing : List CheckStatus) (now : Int) :
    List ResolvedCheck × List CheckStatus × Int :=
  let m := buildStatusMap existing
  let r := schedLoop m now resolved [] [] 0
  if r.2.2 = 0 ∧ 0 < resolved.length then (r.1, r.2.1, shortestInterval resolved)
  else r

/-- Due condition of the scheduler: no prior row, or no `lastChecked`, or
`elapsed ≥ interval` (the inclusive boundary of the Go code). -/
def isDue (m : List (String × CheckStatus)) (now : Int) (rc : ResolvedCheck) : Bool :=
  match mapLookup m rc.identifier with
  | none => true
  | some existing =>
    match existing.lastChecked with
    | none => true
    | some lc => rc.interval ≤ now - lc

/-- Row carried forward for a not-due check: the prior status row, verbatim. -/
def carriedRow (m : List (String × CheckStatus)) (now : Int) (rc : ResolvedCheck) :
    Option CheckStatus :=
  match mapLookup m rc.identifier with
  | none => none
  | some existing =>
    match existing.lastChecked with
    | none => none
    | some lc => if rc.interval ≤ now - lc then none else some existing

/-- Remaining time for a carried check (`rc.Interval - elapsed`). -/
def remainingOf (m : List (String × CheckStatus)) (now : Int) (rc : ResolvedCheck) :
    Option Int :=
  match mapLookup m rc.identifier with
  | none => none
  | some existing =>
    match existing.lastChecked with
    | none => none
    | some lc =>
      if rc.interval ≤ now - lc then none else some (rc.interval - (now - lc))

/-- One step of the running-minimum fold of `nextRequeue`. -/
def nrStep (nextRequeue r : Int) : Int :=
  if nextRequeue = 0 ∨ r < nextRequeue then r else nextRequeue

/-- Largest interval of a resolved list (0 for the empty list); used to state
the amended requeue bound. -/
def maxInterval : List ResolvedCheck → Int
  | [] => 0
  | c :: rest => rest.foldl (fun s rc => if s < rc.interval then rc.interval else s) c.interval

/-- ProfileCheckRef mirrors the API type of the same name
(`Name`, `GateCheckRef`, optional `Severity`/`Interval`/`Enabled`,
`Category`, opaque `Config`). -/
structure ProfileCheckRef where
  name : String := ""
  gateCheckRef : String := ""
  severity : Option String := none
  category : String := ""
  interval : Option Int := none
  enabled : Option Bool := none
  config : Option String := none
deriving Repr, DecidableEq

/-- Mirrors `ProfileCheckRef.IsEnabled` (nil defaults to true). -/
def ProfileCheckRef.isEnabled (r : ProfileCheckRef) : Bool :=
  match r.enabled with
  | none => true
  | some b => b

/-- Mirrors `ProfileCheckRef.Identifier`. -/
def ProfileCheckRef.identifier (r : ProfileCheckRef) : String :=
  if r.gateCheckRef ≠ "" then "dynamic:" ++ r.gateCheckRef else r.name

/-- CheckSpec mirrors the inline check API type (same shape as a profile ref). -/
structure CheckSpec where
  name : String := ""
  gateCheckRef : String := ""
  severity : Option String := none
  category : String := ""
  interval : Option Int := none
  enabled : Option Bool := none
  config : Option String := none
deriving Repr, DecidableEq

/-- Mirrors `CheckSpec.IsEnabled` (nil defaults to true). -/
def CheckSpec.isEnabled (c : CheckSpec) : Bool :=
  match c.enabled with
  | none => true
  | some b => b

/-- Mirrors `inlineIdentifier`. -/
def inlineIdentifier (c : CheckSpec) : String :=
  if c.gateCheckRef ≠ "" then "dynamic:" ++ c.gateCheckRef else c.name

/-- ProfileRef mirrors the API type referencing a GateProfile by name. -/
structure ProfileRef where
  name : String := ""
  excludeChecks : List String := []
deriving Repr, DecidableEq

/-- ClusterReadinessSpec mirrors the API type (`Interval`, `Profiles`, `Checks`). -/
structure ClusterReadinessSpec where
  interval : Int := 0
  profiles : List ProfileRef := []
  checks : List CheckSpec := []
deriving Repr, DecidableEq

/-- GateProfile mirrors the relevant part of the GateProfile CR: its name and
its ordered check refs (`Spec.Checks`). -/
structure GateProfile where
  name : String := ""
  checks : List ProfileCheckRef := []
deriving Repr, DecidableEq

/-- Encodes `if x.Interval != nil && x.Interval.Duration > 0 { rc.Interval = ... }`
over the default interval. -/
def intervalOr (i : Option Int) (defInt : Int) : Int :=
  match i with
  | some d => if 0 < d then d else defInt
  | none => defInt

/-- Mirrors `resolveProfileCheckRef`. -/
def resolveProfileCheckRef (ref : ProfileCheckRef) (profileName : String) (defInt : Int) :
    ResolvedCheck :=
  if ref.gateCheckRef ≠ "" then
    { identifier := "dynamic:" ++ ref.gateCheckRef
      isBuiltin := false
      gateCheckName := ref.gateCheckRef
      severity := ref.severity.getD ""
      category := ref.category
      interval := intervalOr ref.interval defInt
      config := ref.config
      source := "profile:" ++ profileName }
  else
    { identifier := ref.name
      isBuiltin := true
      builtinName := ref.name
      severity := ref.severity.getD ""
      category := ref.category
      interval := intervalOr ref.interval defInt
      config := ref.config
      source := "profile:" ++ profileName }

/-- Mirrors `resolveInlineCheck`. -/
def resolveInlineCheck (cs : CheckSpec) (defInt : Int) : ResolvedCheck :=
  if cs.gateCheckRef ≠ "" then
    { identifier := "dynamic:" ++ cs.gateCheckRef
      isBuiltin := false
      gateCheckName := cs.gateCheckRef
      severity := cs.severity.getD ""
      category := cs.category
      interval := intervalOr cs.interval defInt
      config := cs.config
      source := "inline" }
  else
    { identifier := cs.name
      isBuiltin := true
      builtinName := cs.name
      severity := cs.severity.getD ""
      category := cs.category
      interval := intervalOr cs.interval defInt
      config := cs.config
      source := "inline" }

/-- Mirrors `mergeOverrides`: empty severity/category/config of the inline
override are filled from the existing (profile) entry; note that the Go
function does not touch `Interval`. -/
def mergeOverrides (base override : ResolvedCheck) : ResolvedCheck :=
  let o1 := if override.severity = "" then { override with severity := base.severity } else override
  let o2 := if o1.category = "" then { o1 with category := base.category } else o1
  if o2.config = none then { o2 with config := base.config } else o2

/-- Profile-ref loop of `ResolveChecks`: disable deletes from the working map,
enable inserts (overwriting same-identifier entries). -/
def applyProfileRefs (profileName : String) (defInt : Int) :
    List ProfileCheckRef → List (String × ResolvedCheck) → List (String × ResolvedCheck)
  | [], m => m
  | ref :: rest, m =>
    if !ref.isEnabled then
      applyProfileRefs profileName defInt rest (mapDelete m ref.identifier)
    else
      let rc := resolveProfileCheckRef ref profileName defInt
      applyProfileRefs profileName defInt rest (mapInsert m rc.identifier rc)

/-- Profile loop of `ResolveChecks`: each referenced profile is fetched; a
fetch failure aborts the resolution with an error. -/
def resolveProfiles (db : String → Option GateProfile) (defInt : Int) :
    List ProfileRef → List (String × ResolvedCheck) →
    Except String (List (String × ResolvedCheck))
  | [], m => .ok m
  | pr :: rest, m =>
    match db pr.name with
    | none => .error ("gateprofile not found: " ++ pr.name)
    | some profile =>
      resolveProfiles db defInt rest (applyProfileRefs profile.name defInt profile.checks m)

/-- Inline loop of `ResolveChecks`: disable deletes, enable materialises an
inline entry, merging over an existing same-identifier entry. -/
def applyInline (defInt : Int) :
    List CheckSpec → List (String × ResolvedCheck) → List (String × ResolvedCheck)
  | [], m => m
  | cs :: rest, m =>
    if !cs.isEnabled then
      applyInline defInt rest (mapDelete m (inlineIdentifier cs))
    else
      let rc0 := resolveInlineCheck cs defInt
      let rc :=
        match mapLookup m rc0.identifier with
        | some existing => mergeOverrides existing rc0
        | none => rc0
      applyInline defInt rest (mapInsert m rc.identifier rc)

/-- Mirrors `ResolveChecks`: profiles in order, then inline checks, then the
working map's values. -/
def resolveChecks (db : String → Option GateProfile) (spec : ClusterReadinessSpec)
    (defInt : Int) : Except String (List ResolvedCheck) :=
  match resolveProfiles db defInt spec.profiles [] with
  | .error e => .error e
  | .ok m => .ok ((applyInline defInt spec.checks m).map (fun p => p.2))

/-- ReadinessSummary mirrors the aggregated counters of the CRD status. -/
structure ReadinessSummary where
  total : Nat := 0
  passing : Nat := 0
  failing : Nat := 0
  criticalTotal : Nat := 0
  criticalPassing : Nat := 0
  warningTotal : Nat := 0
  warningFailing : Nat := 0
deriving Repr, DecidableEq

/-- Mirrors `categoryAgg`: the per-category accumulator of `aggregateCheck`,
including the check rows appended to `agg.checks` by the reconcile loops. -/
structure CategoryAgg where
  category : String := ""
  criticalFailing : Bool := false
  warningFailing : Bool := false
  total : Nat := 0
  passing : Nat := 0
  failing : Nat := 0
  checks : List CheckStatus := []
deriving Repr, DecidableEq

/-- CategoryStatus mirrors the per-category status block
(`{Category, State, Checks, Total, Passing, Failing}`). -/
structure CategoryStatus where
  category : String := ""
  state : String := ""
  checks : List CheckStatus := []
  total : Nat := 0
  passing : Nat := 0
  failing : Nat := 0
deriving Repr, DecidableEq

/-- Condition mirrors a `metav1.Condition` (without the transition timestamp,
which is wall-clock noise the claims do not touch). -/
structure Condition where
  condType : String := ""
  status : String := ""
  reason : String := ""
  message : String := ""
deriving Repr, DecidableEq

/-- ClusterReadinessStatus mirrors the observed-state fields written by the
current `Reconcile` (`State`, `LastChecked`, `Categories`, `Summary`,
`Conditions`). -/
structure ClusterReadinessStatus where
  state : String := ""
  lastChecked : Option Int := none
  categories : List CategoryStatus := []
  summary : Option ReadinessSummary := none
  conditions : List Condition := []
deriving Repr, DecidableEq

/-- ClusterReadiness mirrors the top-level CR: spec plus observed status. -/
structure ClusterReadiness where
  name : String := ""
  spec : ClusterReadinessSpec := {}
  status : ClusterReadinessStatus := {}
deriving Repr, DecidableEq

/-- Models `meta.SetStatusCondition`: replaces the entry with the same type in
place, or appends a new one. -/
def setStatusCondition (conds : List Condition) (c : Condition) : List Condition :=
  match conds with
  | [] => [c]
  | c1 :: rest => if c1.condType = c.condType then c :: rest else c1 :: setStatusCondition rest c

/-- CheckResult mirrors `controller.checkResult` (probe duration dropped:
wall-clock noise feeding only the histogram). -/
structure CheckResult where
  name : String := ""
  severity : String := ""
  category : String := ""
  source : String := ""
  resultReady : Bool := false
  resultMessage : String := ""
  err : Option String := none
deriving Repr, DecidableEq

/-- Summary part of `aggregateCheck`. -/
def aggStepSummary (s : ReadinessSummary) (severity : String) (ready : Bool) :
    ReadinessSummary :=
  let s := { s with total := s.total + 1 }
  let s := if ready then { s with passing := s.passing + 1 } else { s with failing := s.failing + 1 }
  if severity = "critical" then
    let s := { s with criticalTotal := s.criticalTotal + 1 }
    if ready then { s with criticalPassing := s.criticalPassing + 1 } else s
  else if severity = "warning" then
    let s := { s with warningTotal := s.warningTotal + 1 }
    if !ready then { s with warningFailing := s.warningFailing + 1 } else s
  else s

/-- Per-category part of `aggregateCheck`. -/
def aggStepCategory (a : CategoryAgg) (severity : String) (ready : Bool) : CategoryAgg :=
  let a := { a with total := a.total + 1 }
  if ready then { a with passing := a.passing + 1 }
  else
    let a := { a with failing := a.failing + 1 }
    if severity = "critical" then { a with criticalFailing := true }
    else if severity = "warning" then { a with warningFailing := true }
    else a

/-- Models `categoryMap[category]` access with create-if-missing
(`&categoryAgg{category: category}`) followed by a mutation. -/
def updateCat (m : List (String × CategoryAgg)) (cat : String) (f : CategoryAgg → CategoryAgg) :
    List (String × CategoryAgg) :=
  match m with
  | [] => [(cat, f { category := cat })]
  | (k, v) :: rest => if k = cat then (k, f v) :: rest else (k, v) :: updateCat rest cat f

/-- Aggregation state threaded through the result-processing loops of
`Reconcile`: the summary plus the category map. -/
structure AggState where
  summary : ReadinessSummary := {}
  categoryMap : List (String × CategoryAgg) := []
deriving Repr, DecidableEq

/-- Mirrors `aggregateCheck(summary, categoryMap, severity, category, ready)`. -/
def aggregateCheck (st : AggState) (severity category : String) (ready : Bool) : AggState :=
  { summary := aggStepSummary st.summary severity ready
    categoryMap := updateCat st.categoryMap category (fun a => aggStepCategory a severity ready) }

/-- Mirrors `categoryMap[cat].checks = append(categoryMap[cat].checks, cs)`. -/
def appendCatCheck (st : AggState) (category : String) (cs : CheckStatus) : AggState :=
  { st with
    categoryMap := updateCat st.categoryMap category (fun a => { a with checks := a.checks ++ [cs] }) }

/-- One status row of a cycle as processed by the two result loops of
`Reconcile`: the severity/category/readiness fed to `aggregateCheck` and the
`CheckStatus` row appended to the category bucket. -/
structure CycleItem where
  severity : String := ""
  category : String := ""
  ready : Bool := false
  row : CheckStatus := {}
deriving Repr, DecidableEq

/-- Per-item aggregation step: `aggregateCheck` followed by the append of the
row to its category bucket, as both reconcile loops do. -/
def processItem (st : AggState) (it : CycleItem) : AggState :=
  appendCatCheck (aggregateCheck st it.severity it.category it.ready) it.category it.row

/-- The two sequential result loops of `Reconcile` as one fold over the
fresh-results items followed by the carried items. -/
def processItems (items : List CycleItem) : AggState :=
  items.foldl processItem {}

/-- Fresh-result conversion of `Reconcile` (error forces `ready=false` with a
`check error:` message; the row gets `LastChecked = now`). -/
def freshItem (now : Int) (res : CheckResult) : CycleItem :=
  let ready := match res.err with | some _ => false | none => res.resultReady
  let message := match res.err with | some e => "check error: " ++ e | none => res.resultMessage
  let status := if ready then "Passing" else "Failing"
  { severity := res.severity
    category := res.category
    ready := ready
    row := { name := res.name, source := res.source, status := status,
             severity := res.severity, message := message, lastChecked := some now } }

/-- Category lookup flattened from the prior `status.Categories` (later rows
with the same name overwrite earlier ones, as in the Go map). -/
def buildCategoryLookup (categories : List CategoryStatus) : List (String × String) :=
  categories.foldl
    (fun m cat => cat.checks.foldl (fun m2 c => mapInsert m2 c.name cat.category) m) []

/-- Carried-status conversion of `Reconcile`: the prior row verbatim, with its
category taken from the flattened lookup ("" when absent, the Go map zero). -/
def carriedItem (lookupMap : List (String × String)) (cs : CheckStatus) : CycleItem :=
  { severity := cs.severity
    category := (mapLookup lookupMap cs.name).getD ""
    ready := cs.status == "Passing"
    row := cs }

/-- Insertion step of the sort modelling `sort.Slice` (any comparison sort is
a faithful model; `sort.Slice` is not stable). -/
def insertSorted {α : Type} (le : α → α → Bool) (x : α) : List α → List α
  | [] => [x]
  | y :: ys => if le x y then x :: y :: ys else y :: insertSorted le x ys

/-- Comparison sort used for the deterministic category and check orderings. -/
def sortBy {α : Type} (le : α → α → Bool) (l : List α) : List α :=
  l.foldr (insertSorted le) []

/-- Category state rule of `Reconcile`: Unhealthy on a critical failure, else
Degraded on a warning failure, else Healthy. -/
def catStateOf (agg : CategoryAgg) : String :=
  if agg.criticalFailing then "Unhealthy"
  else if agg.warningFailing then "Degraded"
  else "Healthy"

/-- Builds one `CategoryStatus` from its accumulator, with its checks sorted
by name. -/
def buildCategory (agg : CategoryAgg) : CategoryStatus :=
  { category := agg.category
    state := catStateOf agg
    checks := sortBy (fun a b => decide (a.name < b.name)) agg.checks
    total := agg.total
    passing := agg.passing
    failing := agg.failing }

/-- Builds the published category list: one `CategoryStatus` per map entry,
sorted by category name. -/
def buildCategories (m : List (String × CategoryAgg)) : List CategoryStatus :=
  sortBy (fun a b => decide (a.category < b.category)) (m.map (fun p => buildCategory p.2))

/-- Cluster health state rule of `Reconcile`: Unhealthy unless every critical
check passes, else Degraded when a warning check fails, else Healthy. -/
def healthStateOf (s : ReadinessSummary) : String :=
  if ¬(s.criticalTotal = s.criticalPassing) then "Unhealthy"
  else if 0 < s.warningFailing then "Degraded"
  else "Healthy"

/-- Result of one reconciliation: the status written back, the requeue delay,
and the returned error. -/
structure ReconcileOutput where
  status : ClusterReadinessStatus := {}
  requeueAfter : Int := 0
  err : Option String := none
deriving Repr, DecidableEq

/-- Mirrors the default-interval computation of `Reconcile`
(`spec.Interval` when positive, else 60s). -/
def effectiveInterval (spec : ClusterReadinessSpec) : Int :=
  if 0 < spec.interval then spec.interval else defaultInterval

/-- Condition written on a resolution failure. -/
def profilesResolvedFalse (e : String) : Condition :=
  { condType := "ProfilesResolved", status := "False", reason := "ResolutionFailed",
    message := "failed to resolve profiles: " ++ e }

/-- Condition written when all declared profiles resolved. -/
def profilesResolvedTrue (resolvedCount profileCount : Nat) : Condition :=
  { condType := "ProfilesResolved", status := "True", reason := "AllProfilesResolved",
    message := "resolved " ++ toString resolvedCount ++ " checks from " ++
      toString profileCount ++ " profiles" }

/-- Items of one happy-path cycle: fresh results of the due checks (executed
through `exec`) followed by the carried prior rows. -/
def cycleItems (cr : ClusterReadiness) (rcs : List ResolvedCheck)
    (exec : ResolvedCheck → CheckResult) (now : Int) : List CycleItem :=
  let existingChecks := (cr.status.categories.map (fun c => c.checks)).flatten
  let categoryLookup := buildCategoryLookup cr.status.categories
  let sched := checkSchedule rcs existingChecks now
  (sched.1.map exec).map (freshItem now) ++ sched.2.1.map (carriedItem categoryLookup)

/-- Happy path of `Reconcile` after a successful resolution: optional
`ProfilesResolved=True` condition, scheduling, execution of due checks,
merging with carried rows, aggregation, category building, health state, and
the status written back. -/
def reconcileHappy (cr : ClusterReadiness) (rcs : List ResolvedCheck)
    (exec : ResolvedCheck → CheckResult) (now : Int) : ReconcileOutput :=
  let conditions :=
    if cr.spec.profiles.isEmpty then cr.status.conditions
    else setStatusCondition cr.status.conditions
      (profilesResolvedTrue rcs.length cr.spec.profiles.length)
  let existingChecks := (cr.status.categories.map (fun c => c.checks)).flatten
  let sched := checkSchedule rcs existingChecks now
  let st := processItems (cycleItems cr rcs exec now)
  let summary := st.summary
  { status :=
      { state := healthStateOf summary
        lastChecked := some now
        categories := buildCategories st.categoryMap
        summary := some summary
        conditions := conditions }
    requeueAfter := sched.2.2
    err := none }

/-- Mirrors the current `Reconcile` body from resolution onwards: a resolver
error writes the `ProfilesResolved=False` condition, keeps the rest of the
status, requeues after the cycle default interval and returns no error;
otherwise the happy path runs. -/
def reconcile (cr : ClusterReadiness) (db : String → Option GateProfile)
    (exec : ResolvedCheck → CheckResult) (now : Int) : ReconcileOutput :=
  match resolveChecks db cr.spec (effectiveInterval cr.spec) with
  | .error e =>
    { status :=
        { cr.status with
          conditions := setStatusCondition cr.status.conditions (profilesResolvedFalse e) }
      requeueAfter := effectiveInterval cr.spec
      err := none }
  | .ok rcs => reconcileHappy cr rcs exec now

/-- Result of a `Checker.Run` call: the `checks.Result` plus the returned
error. -/
structure RunOutcome where
  ready : Bool := false
  message : String := ""
  err : Option String := none

/-- Checker handle from the registry: its defaults plus its `Run` behaviour
(an oracle, since `Run` performs I/O). -/
structure Checker where
  defaultSeverity : String := ""
  defaultCategory : String := ""
  run : Option String → RunOutcome

/-- GateCheck defaults relevant to severity/category resolution. -/
structure GateCheckMeta where
  severity : String := ""
  category : String := ""
deriving Repr, DecidableEq

/-- Mirrors `ResolveSeverityAndCategory`: resolved values win; otherwise the
registry defaults (built-in) or the live GateCheck defaults (dynamic), with
the final fallbacks "critical" and "general"/"custom". -/
def resolveSeverityAndCategory (registry : String → Option Checker)
    (gateChecks : String → Option GateCheckMeta) (rc : ResolvedCheck) : String × String :=
  if rc.isBuiltin then
    match registry rc.builtinName with
    | some checker =>
      (if rc.severity = "" then checker.defaultSeverity else rc.severity,
       if rc.category = "" then checker.defaultCategory else rc.category)
    | none =>
      (if rc.severity = "" then "critical" else rc.severity,
       if rc.category = "" then "general" else rc.category)
  else
    let sev :=
      match gateChecks rc.gateCheckName with
      | some gc => if rc.severity = "" then gc.severity else rc.severity
      | none => rc.severity
    let cat :=
      match gateChecks rc.gateCheckName with
      | some gc => if rc.category = "" then gc.category else rc.category
      | none => rc.category
    (if sev = "" then "critical" else sev, if cat = "" then "custom" else cat)

/-- Mirrors `runBuiltinCheck`: an unregistered name yields a synthetic failing
result with an `unknown check:` message and no error; otherwise the checker
runs on the resolved config. -/
def runBuiltinCheck (registry : String → Option Checker) (rc : ResolvedCheck)
    (sev cat : String) : CheckResult :=
  match registry rc.builtinName with
  | none =>
    { name := rc.identifier, severity := sev, category := cat, source := rc.source,
      resultReady := false, resultMessage := "unknown check: " ++ rc.builtinName, err := none }
  | some checker =>
    let o := checker.run rc.config
    { name := rc.identifier, severity := sev, category := cat, source := rc.source,
      resultReady := o.ready, resultMessage := o.message, err := o.err }

/-- Dispatch of a due built-in check as the reconcile goroutine performs it:
severity/category resolution followed by `runBuiltinCheck`. -/
def builtinDispatch (registry : String → Option Checker)
    (gateChecks : String → Option GateCheckMeta) (rc : ResolvedCheck) : CheckResult :=
  let sc := resolveSeverityAndCategory registry gateChecks rc
  runBuiltinCheck registry rc sc.1 sc.2

/-- Server-side per-check state (`server.CheckState` of the readiness
snapshot store). -/
structure SCheckState where
  ready : Bool := false
  message : String := ""
  severity : String := ""
  category : String := ""
deriving Repr, DecidableEq

/-- Server-side per-entity state (`server.ClusterState`); the response-only
summary views are omitted as the handler logic never reads them. -/
structure SClusterState where
  state : String := ""
  checks : List (String × SCheckState) := []
deriving Repr, DecidableEq

/-- Check filter of `filterSnapshot`: a check survives unless a non-empty
category filter mismatches or a non-empty severity filter mismatches. -/
def filterChecks (catF sevF : String) (checks : List (String × SCheckState)) :
    List (String × SCheckState) :=
  checks.filter (fun p =>
    decide (¬(catF ≠ "" ∧ p.2.category ≠ catF) ∧ ¬(sevF ≠ "" ∧ p.2.severity ≠ sevF)))

/-- State-recompute loop of `filterSnapshot`: a failing critical check forces
Unhealthy and stops; a failing warning check downgrades to Degraded. -/
def recomputeLoop (state : String) : List SCheckState → String
  | [] => state
  | ch :: rest =>
    if !ch.ready ∧ ch.severity = "critical" then "Unhealthy"
    else if !ch.ready ∧ ch.severity = "warning" then recomputeLoop "Degraded" rest
    else recomputeLoop state rest

/-- Mirrors `filterSnapshot`: filters each entity's checks and recomputes its
state, with an empty filtered subset forced to Unhealthy. -/
def filterSnapshot (snap : List (String × SClusterState)) (catF sevF : String) :
    List (String × SClusterState) :=
  snap.map (fun p =>
    let filtered := filterChecks catF sevF p.2.checks
    let st := recomputeLoop "Healthy" (filtered.map (fun q => q.2))
    let st := if filtered.isEmpty then "Unhealthy" else st
    (p.1, { state := st, checks := filtered }))

/-- Mirrors `ReadyzHandler` on a snapshot: applies filters when present,
computes readiness (non-empty and no Unhealthy entity), and returns the HTTP
status code together with the response state. -/
def readyzHandler (snap : List (String × SClusterState)) (catF sevF : String) :
    Nat × String :=
  let snap1 := if catF ≠ "" ∨ sevF ≠ "" then filterSnapshot snap catF sevF else snap
  let healthy := !snap1.isEmpty && snap1.all (fun p => p.2.state != "Unhealthy")
  let respState :=
    if !healthy then "Unhealthy"
    else if snap1.any (fun p => p.2.state == "Degraded") then "Degraded"
    else "Healthy"
  (if healthy then 200 else 503, respState)

/-- Entity state rule as worded by the spec for `/readyz` filtering: a
filtered subset of zero checks is Unhealthy; otherwise Unhealthy on any
failing critical check, else Degraded on any failing warning check, else
Healthy. Stated separately from the handler so the handler can be proved a
refinement of it. -/
def ruleState (checks : List SCheckState) : String :=
  if checks.isEmpty then "Unhealthy"
  else if checks.any (fun ch => !ch.ready && ch.severity == "critical") then "Unhealthy"
  else if checks.any (fun ch => !ch.ready && ch.severity == "warning") then "Degraded"
  else "Healthy"

/-- Combined effect of `processItem` on the bucket of the item's own
category: the `aggregateCheck` mutation followed by the row append. -/
def stepFull (a : CategoryAgg) (it : CycleItem) : CategoryAgg :=
  let a1 := aggStepCategory a it.severity it.ready
  { a1 with checks := a1.checks ++ [it.row] }

/-- Fold of `stepFull` over the items of one category. -/
def catFold (a : CategoryAgg) (its : List CycleItem) : CategoryAgg :=
  its.foldl stepFull a

/-- Sample resolved built-in check with a 60-unit interval (the `dns` check of
the repository's scheduler tests). -/
def rcDns : ResolvedCheck :=
  { identifier := "dns", isBuiltin := true, builtinName := "dns", interval := 60 }

/-- Sample resolved dynamic check with a 300-unit interval. -/
def rcIngress : ResolvedCheck :=
  { identifier := "dynamic:ingress", gateCheckName := "ingress", interval := 300 }

/-- Prior status row for `dns`, last checked 120 units before `now = 1000`. -/
def stDns : CheckStatus :=
  { name := "dns", status := "Passing", severity := "critical", lastChecked := some 880 }

/-- Prior status row for the dynamic check, last checked 30 units before
`now = 1000`. -/
def stIngress : CheckStatus :=
  { name := "dynamic:ingress", status := "Passing", severity := "critical",
    lastChecked := some 970 }

/-- Profile store for the interval-merge scenario: one profile `p` whose
`dns` ref carries a 300-unit interval. -/
def dbC4 : String → Option GateProfile := fun n =>
  if n = "p" then some { name := "p", checks := [{ name := "dns", interval := some 300 }] }
  else none

/-- Spec for the interval-merge scenario: profile `p` plus an inline `dns`
with no interval set. -/
def specC4 : ClusterReadinessSpec :=
  { profiles := [{ name := "p" }], checks := [{ name := "dns" }] }

/-- Profile store for the disable-then-inline-enable scenario: profile `p`
disables `dns`. -/
def dbC6 : String → Option GateProfile := fun n =>
  if n = "p" then some { name := "p", checks := [{ name := "dns", enabled := some false }] }
  else none

/-- Spec for the disable-then-inline-enable scenario: the inline `dns` sets
`enabled = true` explicitly. -/
def specC6 : ClusterReadinessSpec :=
  { profiles := [{ name := "p" }], checks := [{ name := "dns", enabled := some true }] }

/-- Sample ClusterReadiness with a single inline built-in check and no
profiles. -/
def crSimple : ClusterReadiness :=
  { name := "demo", spec := { checks := [{ name := "dns" }] } }

/-- Empty profile store: every fetch fails. -/
def dbEmpty : String → Option GateProfile := fun _ => none

/-- Execution oracle under which every due check passes as a critical check
of the `general` category. -/
def execPass : ResolvedCheck → CheckResult := fun rc =>
  { name := rc.identifier, severity := "critical", category := "general",
    source := rc.source, resultReady := true, resultMessage := "ok" }

/-- Sample ClusterReadiness referencing a profile that does not exist, with a
prior status row that must survive the resolution failure. -/
def crMissingProfile : ClusterReadiness :=
  { name := "demo"
    spec := { profiles := [{ name := "prod-baseline" }] }
    status :=
      { state := "Healthy"
        categories :=
          [{ category := "networking", state := "Healthy",
             checks := [{ name := "dns", status := "Passing", severity := "critical" }],
             total := 1, passing := 1 }] } }

/-- Snapshot with one entity that is Unhealthy overall (failing critical
`ingress` in `networking`) but Healthy on its `security` subset. -/
def snapSample : List (String × SClusterState) :=
  [("test-cluster",
    { state := "Unhealthy"
      checks :=
        [("ingress", { ready := false, severity := "critical", category := "networking" }),
         ("vault", { ready := true, severity := "critical", category := "security" })] })]

/-- Empty check registry: no built-in is registered. -/
def registryEmpty : String → Option Checker := fun _ => none

/-- Empty GateCheck store. -/
def gcEmpty : String → Option GateCheckMeta := fun _ => none

/-- Resolved built-in check whose name is not in the registry and whose
severity and category are unset. -/
def rcUnknown : ResolvedCheck :=
  { identifier := "mystery", isBuiltin := true, builtinName := "mystery",
    source := "inline", interval := 60 }

/-- Profile ref pinning `dns` as a critical networking check (spec
scenario: inline override preserves profile category). -/
def refNet : ProfileCheckRef :=
  { name := "dns", severity := some "critical", category := "networking" }

/-- Inline override of `dns` setting only the severity. -/
def csWarn : CheckSpec := { name := "dns", severity := some "warning" }

/-- Profile store holding the networking profile `p`. -/
def dbNet : String → Option GateProfile := fun n =>
  if n = "p" then some { name := "p", checks := [refNet] } else none

/-- Spec combining profile `p` with the inline severity override. -/
def specNet : ClusterReadinessSpec :=
  { profiles := [{ name := "p" }], checks := [csWarn] }

/-- Condition written by `setStatusCondition` is present in the result. -/
theorem mem_setStatusCondition_self (conds : List Condition) (c : Condition) :
    c ∈ setStatusCondition conds c := by
  induction conds with
  | nil => simp [setStatusCondition]
  | cons c1 rest ih =>
    by_cases h : c1.condType = c.condType
    · simp [setStatusCondition, h]
    · simp only [setStatusCondition, if_neg h]
      exact List.mem_cons_of_mem _ ih

/-- Claim C10: when a due resolved check is a built-in whose name is absent
from the registry, the dispatched result is Failing with message
`unknown check: <name>` and a nil error, severity and category fall back to
`critical` and `general` when unset, the status row records `Failing`, and a
reconciliation whose resolution succeeds returns no error under this
dispatch. -/
theorem c10_unknown_builtin (registry : String → Option Checker)
    (gateChecks : String → Option GateCheckMeta) (rc : ResolvedCheck) (now : Int)
    (cr : ClusterReadiness) (db : String → Option GateProfile) (rcs : List ResolvedCheck)
    (hb : rc.isBuiltin = true) (hreg : registry rc.builtinName = none)
    (hsev : rc.severity = "") (hcat : rc.category = "")
    (hok : resolveChecks db cr.spec (effectiveInterval cr.spec) = .ok rcs) :
    (builtinDispatch registry gateChecks rc).resultReady = false ∧
    (builtinDispatch registry gateChecks rc).resultMessage =
      "unknown check: " ++ rc.builtinName ∧
    (builtinDispatch registry gateChecks rc).err = none ∧
    (builtinDispatch registry gateChecks rc).severity = "critical" ∧
    (builtinDispatch registry gateChecks rc).category = "general" ∧
    (freshItem now (builtinDispatch registry gateChecks rc)).row.status = "Failing" ∧
    (reconcile cr db (builtinDispatch registry gateChecks) now).err = none := by
  constructor
  · simp [builtinDispatch, runBuiltinCheck, hreg]
  constructor
  · simp [builtinDispatch, runBuiltinCheck, hreg]
  constructor
  · simp [builtinDispatch, runBuiltinCheck, hreg]
  constructor
  · simp [builtinDispatch, runBuiltinCheck, resolveSeverityAndCategory, hb, hreg, hsev]
  constructor
  · simp [builtinDispatch, runBuiltinCheck, resolveSeverityAndCategory, hb, hreg, hcat]
  constructor
  · simp [builtinDispatch, runBuiltinCheck, hreg, freshItem]
  · unfold reconcile
    rw [hok]
    simp [reconcileHappy]

/-- Witness for C10 at a concrete unregistered check. -/
theorem c10_unknown_builtin_witness :
    (builtinDispatch registryEmpty gcEmpty rcUnknown).resultReady = false ∧
    (builtinDispatch registryEmpty gcEmpty rcUnknown).resultMessage =
      "unknown check: mystery" ∧
    (builtinDispatch registryEmpty gcEmpty rcUnknown).err = none ∧
    (builtinDispatch registryEmpty gcEmpty rcUnknown).severity = "critical" ∧
    (builtinDispatch registryEmpty gcEmpty rcUnknown).category = "general" := by
  have h := c10_unknown_builtin registryEmpty gcEmpty rcUnknown 0 crSimple dbEmpty
    [resolveInlineCheck { name := "dns" } defaultInterval]
    (by decide) rfl (by decide) (by decide) (by rfl)
  exact ⟨h.1, h.2.1, h.2.2.1, h.2.2.2.1, h.2.2.2.2.1⟩

/-- Claim C9: when resolving any referenced GateProfile fails, `Reconcile`
returns a nil error, writes a `ProfilesResolved=False` condition with reason
`ResolutionFailed`, requeues after the cycle's default interval, and leaves
every other status field — in particular the prior per-check rows — exactly
as it was. -/
theorem c9_resolution_failure (cr : ClusterReadiness) (db : String → Option GateProfile)
    (exec : ResolvedCheck → CheckResult) (now : Int) (e : String)
    (h : resolveChecks db cr.spec (effectiveInterval cr.spec) = .error e) :
    (reconcile cr db exec now).err = none ∧
    (reconcile cr db exec now).requeueAfter = effectiveInterval cr.spec ∧
    (reconcile cr db exec now).status.categories = cr.status.categories ∧
    (reconcile cr db exec now).status.state = cr.status.state ∧
    (reconcile cr db exec now).status.lastChecked = cr.status.lastChecked ∧
    (reconcile cr db exec now).status.summary = cr.status.summary ∧
    (reconcile cr db exec now).status.conditions =
      setStatusCondition cr.status.conditions (profilesResolvedFalse e) ∧
    ∃ c ∈ (reconcile cr db exec now).status.conditions,
      c.condType = "ProfilesResolved" ∧ c.status = "False" ∧ c.reason = "ResolutionFailed" := by
  unfold reconcile
  rw [h]
  refine ⟨rfl, rfl, rfl, rfl, rfl, rfl, rfl, ?_⟩
  exact ⟨profilesResolvedFalse e,
    mem_setStatusCondition_self cr.status.conditions (profilesResolvedFalse e),
    rfl, rfl, rfl⟩

/-- Witness for C9 at a concrete missing profile. -/
theorem c9_resolution_failure_witness :
    (reconcile crMissingProfile dbEmpty execPass 0).err = none ∧
    (reconcile crMissingProfile dbEmpty execPass 0).requeueAfter =
      effectiveInterval crMissingProfile.spec ∧
    (reconcile crMissingProfile dbEmpty execPass 0).status.categories =
      crMissingProfile.status.categories := by
  have h := c9_resolution_failure crMissingProfile dbEmpty execPass 0
    "gateprofile not found: prod-baseline" (by rfl)
  exact ⟨h.1, h.2.1, h.2.2.1⟩

/-- Scheduler loop characterization: the due list collects exactly the due
checks in order, the carried list collects exactly the prior rows of the
not-due checks, and the requeue accumulator folds over the remaining times of
the carried checks. -/
theorem schedLoop_spec (m : List (String × CheckStatus)) (now : Int) :
    ∀ (pending due : List ResolvedCheck) (carried : List CheckStatus) (nr : Int),
    schedLoop m now pending due carried nr =
      (due ++ pending.filter (isDue m now),
       carried ++ pending.filterMap (carriedRow m now),
       (pending.filterMap (remainingOf m now)).foldl nrStep nr) := by
  intro pending
  induction pending with
  | nil => intro due carried nr; simp [schedLoop]
  | cons rc rest ih =>
    intro due carried nr
    cases hl : mapLookup m rc.identifier with
    | none =>
      have hd : isDue m now rc = true := by simp [isDue, hl]
      have hc : carriedRow m now rc = none := by simp [carriedRow, hl]
      have hr : remainingOf m now rc = none := by simp [remainingOf, hl]
      simp [schedLoop, hl, ih, hd, hc, hr, List.filter_cons]
    | some existing =>
      cases hlc : existing.lastChecked with
      | none =>
        have hd : isDue m now rc = true := by simp [isDue, hl, hlc]
        have hc : carriedRow m now rc = none := by simp [carriedRow, hl, hlc]
        have hr : remainingOf m now rc = none := by simp [remainingOf, hl, hlc]
        simp [schedLoop, hl, hlc, ih, hd, hc, hr, List.filter_cons]
      | some lc =>
        by_cases hdue : rc.interval ≤ now - lc
        · have hd : isDue m now rc = true := by simp [isDue, hl, hlc, hdue]
          have hc : carriedRow m now rc = none := by simp [carriedRow, hl, hlc, hdue]
          have hr : remainingOf m now rc = none := by simp [remainingOf, hl, hlc, hdue]
          simp [schedLoop, hl, hlc, hdue, ih, hd, hc, hr, List.filter_cons]
        · have hd : isDue m now rc = false := by
            simp [isDue, hl, hlc]; omega
          have hc : carriedRow m now rc = some existing := by
            simp [carriedRow, hl, hlc, hdue]
          have hr : remainingOf m now rc = some (rc.interval - (now - lc)) := by
            simp [remainingOf, hl, hlc, hdue]
          simp [schedLoop, hl, hlc, hdue, ih, hd, hc, hr, List.filter_cons, nrStep]

/-- Claim C8: `CheckSchedule` places each resolved check in exactly one of
`due` and `carried`; a check is due iff it has no prior row by identifier, or
that row has no `lastChecked`, or `now - lastChecked ≥ interval` (inclusive),
and otherwise the prior row is carried forward verbatim. -/
theorem c8_partition (resolved : List ResolvedCheck) (existing : List CheckStatus)
    (now : Int) :
    (checkSchedule resolved existing now).1 =
      resolved.filter (isDue (buildStatusMap existing) now) ∧
    (checkSchedule resolved existing now).2.1 =
      resolved.filterMap (carriedRow (buildStatusMap existing) now) ∧
    ∀ rc ∈ resolved,
      (isDue (buildStatusMap existing) now rc = true ∧
        carriedRow (buildStatusMap existing) now rc = none) ∨
      (isDue (buildStatusMap existing) now rc = false ∧
        ∃ s, mapLookup (buildStatusMap existing) rc.identifier = some s ∧
          carriedRow (buildStatusMap existing) now rc = some s) := by
  refine ⟨?_, ?_, ?_⟩
  · simp only [checkSchedule, schedLoop_spec]
    split <;> simp
  · simp only [checkSchedule, schedLoop_spec]
    split <;> simp
  · intro rc _
    cases hl : mapLookup (buildStatusMap existing) rc.identifier with
    | none => exact Or.inl (by simp [isDue, carriedRow, hl])
    | some existingRow =>
      cases hlc : existingRow.lastChecked with
      | none => exact Or.inl (by simp [isDue, carriedRow, hl, hlc])
      | some lc =>
        by_cases hdue : rc.interval ≤ now - lc
        · exact Or.inl (by simp [isDue, carriedRow, hl, hlc, hdue])
        · refine Or.inr ⟨?_, existingRow, rfl, ?_⟩
          · simp [isDue, hl, hlc]; omega
          · simp [carriedRow, hl, hlc, hdue]

/-- Witness for C8 at the mixed-freshness sample inputs. -/
theorem c8_partition_witness :
    (checkSchedule [rcDns, rcIngress] [stDns, stIngress] 1000).1 =
      [rcDns, rcIngress].filter (isDue (buildStatusMap [stDns, stIngress]) 1000) ∧
    (checkSchedule [rcDns, rcIngress] [stDns, stIngress] 1000).2.1 =
      [rcDns, rcIngress].filterMap (carriedRow (buildStatusMap [stDns, stIngress]) 1000) := by
  have h := c8_partition [rcDns, rcIngress] [stDns, stIngress] 1000
  exact ⟨h.1, h.2.1⟩

/-- Counterexample to C3: with `dns` (interval 60, stale by 120) and a
dynamic check (interval 300, fresh for another 270), `CheckSchedule` returns
`nextRequeue = 270`, strictly above the minimum interval 60 — the repository's
own scheduler test pins exactly this behaviour. -/
theorem c3_counterexample :
    (checkSchedule [rcDns, rcIngress] [stDns, stIngress] 1000).2.2 = 270 ∧
    shortestInterval [rcDns, rcIngress] = 60 ∧
    ¬((checkSchedule [rcDns, rcIngress] [stDns, stIngress] 1000).2.2 ≤
        shortestInterval [rcDns, rcIngress]) := by
  decide

/-- Bound for the running-minimum fold of the requeue accumulator: starting
from 0 over positive values bounded by `M`, the result is 0 or lies in
`(0, M]`. -/
theorem foldl_nrStep_bound (M : Int) :
    ∀ (rems : List Int) (init : Int),
    (init = 0 ∨ (0 < init ∧ init ≤ M)) → (∀ r ∈ rems, 0 < r ∧ r ≤ M) →
    (rems.foldl nrStep init = 0 ∨
      (0 < rems.foldl nrStep init ∧ rems.foldl nrStep init ≤ M)) := by
  intro rems
  induction rems with
  | nil => intro init h _; simpa using h
  | cons r rest ih =>
    intro init hinit hall
    have hr := hall r (by simp)
    have hrest : ∀ x ∈ rest, 0 < x ∧ x ≤ M := fun x hx => hall x (by simp [hx])
    simp only [List.foldl_cons]
    apply ih
    · unfold nrStep
      split
      · exact Or.inr hr
      · exact hinit
    · exact hrest

/-- Values found in an insert-updated association map are the inserted value
or values of the original map. -/
theorem mapLookup_mapInsert_cases {α : Type} (m : List (String × α)) (k k1 : String)
    (v s : α) (h : mapLookup (mapInsert m k v) k1 = some s) :
    s = v ∨ mapLookup m k1 = some s := by
  induction m with
  | nil =>
    simp only [mapInsert, mapLookup] at h
    split at h
    · exact Or.inl (by injection h with h2; exact h2.symm)
    · exact absurd h (by simp)
  | cons p rest ih =>
    obtain ⟨a, b⟩ := p
    simp only [mapInsert] at h
    by_cases hak : a = k
    · subst hak
      rw [if_pos rfl] at h
      simp only [mapLookup] at h ⊢
      by_cases hk1 : a = k1
      · rw [if_pos hk1] at h
        exact Or.inl (by injection h with h2; exact h2.symm)
      · rw [if_neg hk1] at h
        rw [if_neg hk1]
        exact Or.inr h
    · rw [if_neg hak] at h
      simp only [mapLookup] at h ⊢
      by_cases hk1 : a = k1
      · rw [if_pos hk1] at h ⊢
        exact Or.inr h
      · rw [if_neg hk1] at h ⊢
        exact ih h

/-- Every value of the status map built by the scheduler is one of the prior
status rows. -/
theorem buildStatusMap_values :
    ∀ (l : List CheckStatus) (m : List (String × CheckStatus)) (k : String) (s : CheckStatus),
    mapLookup (l.foldl (fun acc x => mapInsert acc x.name x) m) k = some s →
    s ∈ l ∨ mapLookup m k = some s := by
  intro l
  induction l with
  | nil => intro m k s h; exact Or.inr h
  | cons x rest ih =>
    intro m k s h
    simp only [List.foldl_cons] at h
    rcases ih (mapInsert m x.name x) k s h with h1 | h1
    · exact Or.inl (List.mem_cons_of_mem _ h1)
    · rcases mapLookup_mapInsert_cases m x.name k x s h1 with h2 | h2
      · exact Or.inl (h2 ▸ List.mem_cons_self x rest)
      · exact Or.inr h2

/-- The max fold dominates its start and every element. -/
theorem foldl_maxstep_ge (rest : List ResolvedCheck) :
    ∀ s : Int,
    s ≤ rest.foldl (fun s rc => if s < rc.interval then rc.interval else s) s ∧
    ∀ rc ∈ rest,
      rc.interval ≤ rest.foldl (fun s rc => if s < rc.interval then rc.interval else s) s := by
  induction rest with
  | nil => intro s; simp
  | cons rc0 rest ih =>
    intro s
    have hstep : s ≤ (if s < rc0.interval then rc0.interval else s) ∧
        rc0.interval ≤ (if s < rc0.interval then rc0.interval else s) := by
      split <;> omega
    have ihx := ih (if s < rc0.interval then rc0.interval else s)
    refine ⟨by simp only [List.foldl_cons]; omega, ?_⟩
    intro rc hrc
    rcases List.mem_cons.mp hrc with h | h
    · subst h; simp only [List.foldl_cons]; omega
    · simp only [List.foldl_cons]; exact ihx.2 rc h

/-- Every resolved interval is bounded by `maxInterval`. -/
theorem maxInterval_ge (l : List ResolvedCheck) : ∀ rc ∈ l, rc.interval ≤ maxInterval l := by
  cases l with
  | nil => simp
  | cons c rest =>
    intro rc hrc
    rcases List.mem_cons.mp hrc with h | h
    · subst h
      exact le_trans (le_refl _) ((foldl_maxstep_ge rest rc.interval).1)
    · exact (foldl_maxstep_ge rest c.interval).2 rc h

/-- The min fold returns its start or one of the elements' intervals. -/
theorem foldl_minstep_mem (rest : List ResolvedCheck) :
    ∀ s : Int,
    rest.foldl (fun s rc => if rc.interval < s then rc.interval else s) s = s ∨
    ∃ rc ∈ rest,
      rest.foldl (fun s rc => if rc.interval < s then rc.interval else s) s = rc.interval := by
  induction rest with
  | nil => intro s; simp
  | cons rc0 rest ih =>
    intro s
    simp only [List.foldl_cons]
    rcases ih (if rc0.interval < s then rc0.interval else s) with h | ⟨rc, hrc, h⟩
    · rw [h]
      split
      · exact Or.inr ⟨rc0, by simp⟩
      · exact Or.inl rfl
    · exact Or.inr ⟨rc, List.mem_cons_of_mem _ hrc, h⟩

/-- `shortestInterval` of a non-empty list is one of the list's intervals. -/
theorem shortestInterval_mem (l : List ResolvedCheck) (h : l ≠ []) :
    ∃ rc ∈ l, shortestInterval l = rc.interval := by
  cases l with
  | nil => exact absurd rfl h
  | cons c rest =>
    unfold shortestInterval
    rcases foldl_minstep_mem rest c.interval with h1 | ⟨rc, hrc, h1⟩
    · exact ⟨c, by simp, h1⟩
    · exact ⟨rc, List.mem_cons_of_mem _ hrc, h1⟩

/-- Amendment of C3: for a non-empty resolved list with non-negative
intervals and prior timestamps not in the future, `CheckSchedule` returns
`0 ≤ nextRequeue ≤ max(rc.interval)` — the minimum-interval upper bound of
the claim fails (see the counterexample), the maximum interval is the bound
the code guarantees. -/
theorem c3_amended (resolved : List ResolvedCheck) (existing : List CheckStatus) (now : Int)
    (hne : resolved ≠ [])
    (hpos : ∀ rc ∈ resolved, 0 ≤ rc.interval)
    (hlc : ∀ s ∈ existing, ∀ t, s.lastChecked = some t → t ≤ now) :
    0 ≤ (checkSchedule resolved existing now).2.2 ∧
    (checkSchedule resolved existing now).2.2 ≤ maxInterval resolved := by
  have hrem : ∀ r ∈ resolved.filterMap (remainingOf (buildStatusMap existing) now),
      0 < r ∧ r ≤ maxInterval resolved := by
    intro r hr
    rcases List.mem_filterMap.mp hr with ⟨rc, hrc, hrro⟩
    cases hl : mapLookup (buildStatusMap existing) rc.identifier with
    | none => simp [remainingOf, hl] at hrro
    | some ex =>
      cases hlc2 : ex.lastChecked with
      | none => simp [remainingOf, hl, hlc2] at hrro
      | some t =>
        by_cases hd : rc.interval ≤ now - t
        · simp [remainingOf, hl, hlc2, hd] at hrro
        · simp only [remainingOf, hl, hlc2, if_neg hd] at hrro
          injection hrro with hrro
          have hex : ex ∈ existing := by
            rcases buildStatusMap_values existing [] rc.identifier ex hl with h1 | h1
            · exact h1
            · simp [mapLookup] at h1
          have ht : t ≤ now := hlc ex hex t hlc2
          have hmax := maxInterval_ge resolved rc hrc
          omega
  have hfold := foldl_nrStep_bound (maxInterval resolved)
    (resolved.filterMap (remainingOf (buildStatusMap existing) now)) 0 (Or.inl rfl) hrem
  have hshort : 0 ≤ shortestInterval resolved ∧
      shortestInterval resolved ≤ maxInterval resolved := by
    rcases shortestInterval_mem resolved hne with ⟨rc, hrc, hs⟩
    exact ⟨hs ▸ hpos rc hrc, hs ▸ maxInterval_ge resolved rc hrc⟩
  simp only [checkSchedule, schedLoop_spec]
  split
  · simpa using hshort
  · rcases hfold with h | h
    · rename_i hcond
      exfalso
      apply hcond
      refine ⟨by simpa using h, ?_⟩
      cases resolved with
      | nil => exact absurd rfl hne
      | cons a b => simp
    · constructor
      · have := h.1; simp only [List.nil_append] at *; omega
      · have := h.2; simp only [List.nil_append] at *; omega

/-- Witness for the amended C3 at a concrete single-check input. -/
theorem c3_amended_witness :
    0 ≤ (checkSchedule [rcDns] [] 0).2.2 ∧
    (checkSchedule [rcDns] [] 0).2.2 ≤ maxInterval [rcDns] := by
  exact c3_amended [rcDns] [] 0 (by decide) (by decide) (by simp)

/-- Identifier of an inline resolution is the inline identifier. -/
theorem resolveInlineCheck_identifier (cs : CheckSpec) (d : Int) :
    (resolveInlineCheck cs d).identifier = inlineIdentifier cs := by
  unfold resolveInlineCheck inlineIdentifier
  split <;> rfl

/-- Field values of an inline resolution. -/
theorem resolveInlineCheck_fields (cs : CheckSpec) (d : Int) :
    (resolveInlineCheck cs d).severity = cs.severity.getD "" ∧
    (resolveInlineCheck cs d).category = cs.category ∧
    (resolveInlineCheck cs d).interval = intervalOr cs.interval d ∧
    (resolveInlineCheck cs d).config = cs.config ∧
    (resolveInlineCheck cs d).source = "inline" := by
  unfold resolveInlineCheck
  split <;> exact ⟨rfl, rfl, rfl, rfl, rfl⟩

/-- Identifier of a profile-ref resolution is the ref's identifier. -/
theorem resolveProfileCheckRef_identifier (ref : ProfileCheckRef) (pn : String) (d : Int) :
    (resolveProfileCheckRef ref pn d).identifier = ref.identifier := by
  unfold resolveProfileCheckRef ProfileCheckRef.identifier
  split <;> rfl

/-- Field behaviour of `mergeOverrides`: identifier, interval and source come
from the override; severity, category and config fall back to the base when
the override leaves them empty. -/
theorem mergeOverrides_fields (b o : ResolvedCheck) :
    (mergeOverrides b o).identifier = o.identifier ∧
    (mergeOverrides b o).interval = o.interval ∧
    (mergeOverrides b o).source = o.source ∧
    (mergeOverrides b o).severity = (if o.severity = "" then b.severity else o.severity) ∧
    (mergeOverrides b o).category = (if o.category = "" then b.category else o.category) ∧
    (mergeOverrides b o).config = (if o.config = none then b.config else o.config) := by
  unfold mergeOverrides
  by_cases h1 : o.severity = "" <;> by_cases h2 : o.category = "" <;>
    by_cases h3 : o.config = none <;> simp [h1, h2, h3]

/-- Resolution of the one-profile-plus-one-inline scenario in which both
sides are enabled and name the same identifier: the single resolved entry is
the merge of the profile entry with the inline entry. -/
theorem resolveChecks_profile_inline (db : String → Option GateProfile) (pn : String)
    (ref : ProfileCheckRef) (cs : CheckSpec) (defInt : Int) (ex : List String)
    (hdb : db pn = some { name := pn, checks := [ref] })
    (hrefEn : ref.isEnabled = true) (hcsEn : cs.isEnabled = true)
    (hid : inlineIdentifier cs = ref.identifier) :
    resolveChecks db
        { profiles := [{ name := pn, excludeChecks := ex }], checks := [cs] } defInt =
      .ok [mergeOverrides (resolveProfileCheckRef ref pn defInt)
            (resolveInlineCheck cs defInt)] := by
  unfold resolveChecks
  simp only [resolveProfiles, hdb, applyProfileRefs, hrefEn, Bool.not_true,
    Bool.false_eq_true, if_false, mapInsert]
  simp only [applyInline, hcsEn, Bool.not_true, Bool.false_eq_true, if_false,
    mapLookup, resolveInlineCheck_identifier, hid, resolveProfileCheckRef_identifier,
    if_pos rfl, mapInsert]
  have hmid : (mergeOverrides (resolveProfileCheckRef ref pn defInt)
      (resolveInlineCheck cs defInt)).identifier = ref.identifier := by
    rw [(mergeOverrides_fields _ _).1, resolveInlineCheck_identifier, hid]
  simp [hmid]

/-- Resolution of the disable-then-inline scenario: the profile ref disables
the identifier, so the working map is empty when the enabled inline check is
processed, and the inline entry is inserted unmerged. -/
theorem resolveChecks_disable_inline (db : String → Option GateProfile) (pn : String)
    (ref : ProfileCheckRef) (cs : CheckSpec) (defInt : Int) (ex : List String)
    (hdb : db pn = some { name := pn, checks := [ref] })
    (hrefDis : ref.isEnabled = false) (hcsEn : cs.isEnabled = true) :
    resolveChecks db
        { profiles := [{ name := pn, excludeChecks := ex }], checks := [cs] } defInt =
      .ok [resolveInlineCheck cs defInt] := by
  unfold resolveChecks
  simp only [resolveProfiles, hdb, applyProfileRefs, hrefDis, Bool.not_false, if_true,
    mapDelete]
  simp only [applyInline, hcsEn, Bool.not_true, Bool.false_eq_true, if_false,
    mapLookup, mapInsert, List.map]

/-- Claim C7 (merge law): with a profile and an enabled inline check naming
the same identifier, the resolved entry is the inline-over-profile merge: its
source is `inline`, and each of severity, category and config that the inline
form leaves empty equals the profile entry's value. -/
theorem c7_merge_law (db : String → Option GateProfile) (pn : String)
    (ref : ProfileCheckRef) (cs : CheckSpec) (defInt : Int) (ex : List String)
    (hdb : db pn = some { name := pn, checks := [ref] })
    (hrefEn : ref.isEnabled = true) (hcsEn : cs.isEnabled = true)
    (hid : inlineIdentifier cs = ref.identifier) :
    resolveChecks db
        { profiles := [{ name := pn, excludeChecks := ex }], checks := [cs] } defInt =
      .ok [mergeOverrides (resolveProfileCheckRef ref pn defInt)
            (resolveInlineCheck cs defInt)] ∧
    (mergeOverrides (resolveProfileCheckRef ref pn defInt)
        (resolveInlineCheck cs defInt)).source = "inline" ∧
    (cs.severity = none →
      (mergeOverrides (resolveProfileCheckRef ref pn defInt)
          (resolveInlineCheck cs defInt)).severity =
        (resolveProfileCheckRef ref pn defInt).severity) ∧
    (cs.category = "" →
      (mergeOverrides (resolveProfileCheckRef ref pn defInt)
          (resolveInlineCheck cs defInt)).category =
        (resolveProfileCheckRef ref pn defInt).category) ∧
    (cs.config = none →
      (mergeOverrides (resolveProfileCheckRef ref pn defInt)
          (resolveInlineCheck cs defInt)).config =
        (resolveProfileCheckRef ref pn defInt).config) := by
  obtain ⟨hsev, hcat, hint, hcfg, hsrc⟩ := resolveInlineCheck_fields cs defInt
  obtain ⟨mid, mint, msrc, msev, mcat, mcfg⟩ :=
    mergeOverrides_fields (resolveProfileCheckRef ref pn defInt) (resolveInlineCheck cs defInt)
  refine ⟨resolveChecks_profile_inline db pn ref cs defInt ex hdb hrefEn hcsEn hid,
    by rw [msrc, hsrc], ?_, ?_, ?_⟩
  · intro h
    rw [msev, hsev, h]
    simp
  · intro h
    rw [mcat, hcat, h]
    simp
  · intro h
    rw [mcfg, hcfg, h]
    simp

/-- Witness for C7: the profile's networking category survives an inline
severity-only override (spec scenario 2). -/
theorem c7_merge_law_witness :
    resolveChecks dbNet specNet 60 =
      .ok [mergeOverrides (resolveProfileCheckRef refNet "p" 60)
            (resolveInlineCheck csWarn 60)] ∧
    (mergeOverrides (resolveProfileCheckRef refNet "p" 60)
        (resolveInlineCheck csWarn 60)).category = "networking" ∧
    (mergeOverrides (resolveProfileCheckRef refNet "p" 60)
        (resolveInlineCheck csWarn 60)).severity = "warning" := by
  have h := c7_merge_law dbNet "p" refNet csWarn 60 [] rfl rfl rfl (by decide)
  exact ⟨h.1, (h.2.2.2.1 rfl).trans (by decide), by decide⟩

/-- Counterexample to C4: profile `p` gives `dns` a 300-unit interval, the
cycle default is 60, and the inline `dns` leaves its interval unset — the
resolved interval is 60 (the default), not the profile's 300. -/
theorem c4_counterexample :
    (resolveChecks dbC4 specC4 60).toOption.map (List.map (fun rc => rc.interval)) =
      some [60] ∧
    (resolveChecks dbC4 specC4 60).toOption.map (List.map (fun rc => rc.interval)) ≠
      some [300] := by
  decide

/-- Amendment of C4: when an inline check overriding a profile entry leaves
its interval unset, the resolved interval is the cycle's default interval —
`mergeOverrides` fills only severity, category and config from the profile
entry, never the interval. -/
theorem c4_amended (db : String → Option GateProfile) (pn : String)
    (ref : ProfileCheckRef) (cs : CheckSpec) (defInt : Int) (ex : List String)
    (hdb : db pn = some { name := pn, checks := [ref] })
    (hrefEn : ref.isEnabled = true) (hcsEn : cs.isEnabled = true)
    (hid : inlineIdentifier cs = ref.identifier)
    (hint : cs.interval = none) :
    resolveChecks db
        { profiles := [{ name := pn, excludeChecks := ex }], checks := [cs] } defInt =
      .ok [mergeOverrides (resolveProfileCheckRef ref pn defInt)
            (resolveInlineCheck cs defInt)] ∧
    (mergeOverrides (resolveProfileCheckRef ref pn defInt)
        (resolveInlineCheck cs defInt)).interval = defInt := by
  obtain ⟨_, hcat, hi, _, _⟩ := resolveInlineCheck_fields cs defInt
  obtain ⟨_, mint, _, _, _, _⟩ :=
    mergeOverrides_fields (resolveProfileCheckRef ref pn defInt) (resolveInlineCheck cs defInt)
  refine ⟨resolveChecks_profile_inline db pn ref cs defInt ex hdb hrefEn hcsEn hid, ?_⟩
  rw [mint, hi, hint]
  rfl

/-- Witness for the amended C4 at the concrete interval scenario. -/
theorem c4_amended_witness :
    resolveChecks dbC4 specC4 60 =
      .ok [mergeOverrides
            (resolveProfileCheckRef { name := "dns", interval := some 300 } "p" 60)
            (resolveInlineCheck { name := "dns" } 60)] ∧
    (mergeOverrides (resolveProfileCheckRef { name := "dns", interval := some 300 } "p" 60)
        (resolveInlineCheck { name := "dns" } 60)).interval = 60 := by
  have h := c4_amended dbC4 "p" { name := "dns", interval := some 300 } { name := "dns" }
    60 [] rfl rfl rfl (by decide) rfl
  exact ⟨h.1, h.2⟩

/-- Counterexample to C6: profile `p` disables `dns`, the inline `dns` sets
`enabled = true`, and `ResolveChecks` returns an entry for `dns` (with source
`inline`) — not the empty result the claim requires. -/
theorem c6_counterexample :
    (resolveChecks dbC6 specC6 60).toOption.map
        (List.map (fun rc => (rc.identifier, rc.source))) =
      some [("dns", "inline")] ∧
    (resolveChecks dbC6 specC6 60).toOption.map
        (List.map (fun rc => (rc.identifier, rc.source))) ≠ some [] := by
  decide

/-- Amendment of C6: after a profile-level disable of an identifier, a later
inline check naming it with `enabled = true` IS resolved: the inline entry is
inserted as a fresh `inline`-sourced check (the disable only removed the
profile entry, so no profile values are merged). -/
theorem c6_amended (db : String → Option GateProfile) (pn : String)
    (ref : ProfileCheckRef) (cs : CheckSpec) (defInt : Int) (ex : List String)
    (hdb : db pn = some { name := pn, checks := [ref] })
    (hrefDis : ref.isEnabled = false) (hcsEn : cs.isEnabled = true)
    (_hid : inlineIdentifier cs = ref.identifier) :
    resolveChecks db
        { profiles := [{ name := pn, excludeChecks := ex }], checks := [cs] } defInt =
      .ok [resolveInlineCheck cs defInt] ∧
    (resolveInlineCheck cs defInt).source = "inline" ∧
    (resolveInlineCheck cs defInt).identifier = inlineIdentifier cs := by
  exact ⟨resolveChecks_disable_inline db pn ref cs defInt ex hdb hrefDis hcsEn,
    (resolveInlineCheck_fields cs defInt).2.2.2.2,
    resolveInlineCheck_identifier cs defInt⟩

/-- Witness for the amended C6 at the concrete disable scenario. -/
theorem c6_amended_witness :
    resolveChecks dbC6 specC6 60 =
      .ok [resolveInlineCheck { name := "dns", enabled := some true } 60] ∧
    (resolveInlineCheck { name := "dns", enabled := some true } 60).source = "inline" := by
  have h := c6_amended dbC6 "p" { name := "dns", enabled := some false }
    { name := "dns", enabled := some true } 60 [] rfl rfl rfl (by decide)
  exact ⟨h.1, h.2.1⟩

/-- The state-recompute loop of `filterSnapshot` computes: Unhealthy if any
critical check fails, else Degraded if any warning check fails, else its
accumulator. -/
theorem recomputeLoop_spec :
    ∀ (l : List SCheckState) (acc : String),
    recomputeLoop acc l =
      if l.any (fun ch => !ch.ready && ch.severity == "critical") then "Unhealthy"
      else if l.any (fun ch => !ch.ready && ch.severity == "warning") then "Degraded"
      else acc := by
  intro l
  induction l with
  | nil => intro acc; simp [recomputeLoop]
  | cons ch rest ih =>
    intro acc
    by_cases hr : ch.ready
    · simp [recomputeLoop, hr, ih]
    · by_cases hc : ch.severity = "critical"
      · simp [recomputeLoop, hr, hc]
      · by_cases hw : ch.severity = "warning"
        · simp only [recomputeLoop, hr, hc, hw]
          simp only [false_and, and_true, Bool.not_false, if_false, if_true, ih,
            List.any_cons, Bool.not_true, Bool.true_and]
          by_cases hcr : rest.any (fun ch => !ch.ready && ch.severity == "critical") <;>
            simp [hc, hw, hr, hcr]
        · simp [recomputeLoop, hr, hc, hw, ih]

/-- The per-entity recomputation of `filterSnapshot` (loop plus the
empty-subset override) equals the spec's rule. -/
theorem recompute_eq_ruleState (l : List SCheckState) :
    (if l.isEmpty then "Unhealthy" else recomputeLoop "Healthy" l) = ruleState l := by
  by_cases h : l.isEmpty
  · simp [ruleState, h]
  · simp [ruleState, h, recomputeLoop_spec]

/-- The recomputed state is one of the three health states. -/
theorem ruleState_cases (l : List SCheckState) :
    ruleState l = "Unhealthy" ∨ ruleState l = "Degraded" ∨ ruleState l = "Healthy" := by
  unfold ruleState
  split
  · exact Or.inl rfl
  · split
    · exact Or.inl rfl
    · split
      · exact Or.inr (Or.inl rfl)
      · exact Or.inr (Or.inr rfl)

/-- Refinement: `filterSnapshot` keeps every entity under its name, replaces
its checks by the filtered subset, and recomputes its state by the spec's
rule. -/
theorem filterSnapshot_eq (snap : List (String × SClusterState)) (catF sevF : String) :
    filterSnapshot snap catF sevF =
      snap.map (fun p =>
        (p.1, { state := ruleState ((filterChecks catF sevF p.2.checks).map (fun q => q.2)),
                checks := filterChecks catF sevF p.2.checks })) := by
  unfold filterSnapshot
  apply List.map_congr_left
  intro p _
  have hemp : (filterChecks catF sevF p.2.checks).isEmpty =
      ((filterChecks catF sevF p.2.checks).map (fun q => q.2)).isEmpty := by
    cases filterChecks catF sevF p.2.checks <;> rfl
  rw [← recompute_eq_ruleState ((filterChecks catF sevF p.2.checks).map (fun q => q.2)),
    ← hemp]

/-- Claim C2: without filters, `/readyz` answers 200 iff the snapshot map is
non-empty and no entity is Unhealthy (an empty store yields 503); with a
category and/or severity filter, each entity's state is recomputed from its
filtered check subset by the spec's rule (an empty subset giving Unhealthy),
and the handler answers 200 iff the post-filter map is non-empty and every
post-filter state is Healthy or Degraded. -/
theorem c2_readyz (snap : List (String × SClusterState)) (catF sevF : String)
    (hf : catF ≠ "" ∨ sevF ≠ "") :
    ((readyzHandler snap "" "").1 = 200 ↔
      (snap ≠ [] ∧ ∀ p ∈ snap, p.2.state ≠ "Unhealthy")) ∧
    (filterSnapshot snap catF sevF =
      snap.map (fun p =>
        (p.1, { state := ruleState ((filterChecks catF sevF p.2.checks).map (fun q => q.2)),
                checks := filterChecks catF sevF p.2.checks }))) ∧
    ((readyzHandler snap catF sevF).1 = 200 ↔
      (filterSnapshot snap catF sevF ≠ [] ∧
        ∀ p ∈ filterSnapshot snap catF sevF,
          p.2.state = "Healthy" ∨ p.2.state = "Degraded")) := by
  have h200 : ∀ b : Bool, ((if b then (200 : Nat) else 503) = 200) ↔ b = true := by
    intro b; cases b <;> simp
  refine ⟨?_, filterSnapshot_eq snap catF sevF, ?_⟩
  · unfold readyzHandler
    rw [if_neg (by simp)]
    rw [h200]
    simp [List.isEmpty_iff, List.all_eq_true]
  · have hmem : ∀ p ∈ filterSnapshot snap catF sevF,
        p.2.state = "Unhealthy" ∨ p.2.state = "Degraded" ∨ p.2.state = "Healthy" := by
      intro p hp
      rw [filterSnapshot_eq] at hp
      rcases List.mem_map.mp hp with ⟨q, _, rfl⟩
      simpa using ruleState_cases _
    unfold readyzHandler
    rw [if_pos hf]
    rw [h200]
    simp only [Bool.and_eq_true, Bool.not_eq_eq_eq_not, Bool.not_true, List.all_eq_true,
      bne_iff_ne, ne_eq, List.isEmpty_iff, Bool.not_eq_true]
    constructor
    · rintro ⟨h1, h2⟩
      refine ⟨by simpa [List.isEmpty_iff] using h1, ?_⟩
      intro p hp
      rcases hmem p hp with h | h | h
      · exact absurd h (h2 p hp)
      · exact Or.inr h
      · exact Or.inl h
    · rintro ⟨h1, h2⟩
      refine ⟨by simpa [List.isEmpty_iff] using h1, ?_⟩
      intro p hp
      rcases h2 p hp with h | h <;> simp [h]

/-- Witness for C2: the mixed entity of the sample snapshot is Unhealthy
overall, yet filtering to its passing `security` category answers 200 (spec
scenario 7). -/
theorem c2_readyz_witness :
    (readyzHandler snapSample "security" "").1 = 200 ∧
    (readyzHandler snapSample "" "").1 = 503 := by
  have h := c2_readyz snapSample "security" "" (Or.inl (by decide))
  constructor
  · exact (h.2.2).mpr (by decide)
  · have h1 := h.1
    by_cases hx : (readyzHandler snapSample "" "").1 = 200
    · exfalso
      have := h1.mp hx
      revert this
      decide
    · revert hx
      decide

/-- Field changes of the summary step of `aggregateCheck`, phrased with the
Boolean guards used by `countP`. -/
theorem aggStepSummary_fields (s : ReadinessSummary) (sev : String) (ready : Bool) :
    (aggStepSummary s sev ready).total = s.total + 1 ∧
    (aggStepSummary s sev ready).passing = s.passing + (if ready then 1 else 0) ∧
    (aggStepSummary s sev ready).failing = s.failing + (if !ready then 1 else 0) ∧
    (aggStepSummary s sev ready).criticalTotal =
      s.criticalTotal + (if sev == "critical" then 1 else 0) ∧
    (aggStepSummary s sev ready).criticalPassing =
      s.criticalPassing + (if sev == "critical" && ready then 1 else 0) ∧
    (aggStepSummary s sev ready).warningTotal =
      s.warningTotal + (if sev == "warning" then 1 else 0) ∧
    (aggStepSummary s sev ready).warningFailing =
      s.warningFailing + (if sev == "warning" && !ready then 1 else 0) := by
  unfold aggStepSummary
  by_cases hc : sev = "critical"
  · cases ready <;> simp [hc]
  · by_cases hw : sev = "warning"
    · cases ready <;> simp [hc, hw]
    · cases ready <;> simp [hc, hw]

/-- The summary after the item fold counts rows, passes, failures, and the
severity-specific tallies of the processed items. -/
theorem processItems_summary :
    ∀ (items : List CycleItem) (st : AggState),
    (items.foldl processItem st).summary.total = st.summary.total + items.length ∧
    (items.foldl processItem st).summary.passing =
      st.summary.passing + items.countP (fun it => it.ready) ∧
    (items.foldl processItem st).summary.failing =
      st.summary.failing + items.countP (fun it => !it.ready) ∧
    (items.foldl processItem st).summary.criticalTotal =
      st.summary.criticalTotal + items.countP (fun it => it.severity == "critical") ∧
    (items.foldl processItem st).summary.criticalPassing =
      st.summary.criticalPassing +
        items.countP (fun it => it.severity == "critical" && it.ready) ∧
    (items.foldl processItem st).summary.warningTotal =
      st.summary.warningTotal + items.countP (fun it => it.severity == "warning") ∧
    (items.foldl processItem st).summary.warningFailing =
      st.summary.warningFailing +
        items.countP (fun it => it.severity == "warning" && !it.ready) := by
  intro items
  induction items with
  | nil => intro st; simp
  | cons it rest ih =>
    intro st
    have h1 := ih (processItem st it)
    have h2 := aggStepSummary_fields st.summary it.severity it.ready
    have hps : (processItem st it).summary = aggStepSummary st.summary it.severity it.ready :=
      rfl
    rw [hps] at h1
    obtain ⟨ha1, ha2, ha3, ha4, ha5, ha6, ha7⟩ := h1
    obtain ⟨hb1, hb2, hb3, hb4, hb5, hb6, hb7⟩ := h2
    simp only [List.foldl_cons, List.countP_cons, List.length_cons,
      ha1, ha2, ha3, ha4, ha5, ha6, ha7, hb1, hb2, hb3, hb4, hb5, hb6, hb7]
    omega

/-- A conjunction is counted at most as often as its left conjunct. -/
theorem countP_and_le {α : Type} (l : List α) (p q : α → Bool) :
    l.countP (fun a => p a && q a) ≤ l.countP p := by
  induction l with
  | nil => simp
  | cons a rest ih =>
    simp only [List.countP_cons]
    have hif : (if (p a && q a) = true then 1 else 0) ≤ (if p a = true then 1 else 0) := by
      by_cases hp : p a <;> by_cases hq : q a <;> simp [hp, hq]
    omega

/-- Lookup of the updated key after `updateCat`. -/
theorem mapLookup_updateCat_self (m : List (String × CategoryAgg)) (cat : String)
    (f : CategoryAgg → CategoryAgg) :
    mapLookup (updateCat m cat f) cat =
      some (f ((mapLookup m cat).getD { category := cat })) := by
  induction m with
  | nil => simp [updateCat, mapLookup]
  | cons p rest ih =>
    obtain ⟨a, b⟩ := p
    by_cases h : a = cat
    · subst h
      simp [updateCat, mapLookup]
    · simp [updateCat, mapLookup, h, ih]

/-- Lookup of any other key is unchanged by `updateCat`. -/
theorem mapLookup_updateCat_other (m : List (String × CategoryAgg)) (cat k : String)
    (f : CategoryAgg → CategoryAgg) (h : ¬cat = k) :
    mapLookup (updateCat m cat f) k = mapLookup m k := by
  induction m with
  | nil =>
    simp only [updateCat, mapLookup]
    rw [if_neg h]
  | cons p rest ih =>
    obtain ⟨a, b⟩ := p
    by_cases ha : a = cat
    · subst ha
      simp [updateCat, mapLookup, h]
    · simp [updateCat, mapLookup, ha, ih]

/-- Effect of one processed item on the category-map lookup. -/
theorem lookup_processItem (st : AggState) (it : CycleItem) (k : String) :
    mapLookup (processItem st it).categoryMap k =
      if it.category = k then
        some (stepFull ((mapLookup st.categoryMap k).getD { category := k }) it)
      else mapLookup st.categoryMap k := by
  unfold processItem appendCatCheck aggregateCheck
  by_cases h : it.category = k
  · subst h
    rw [if_pos rfl]
    simp only [mapLookup_updateCat_self, Option.getD_some]
    rfl
  · rw [if_neg h]
    simp only [mapLookup_updateCat_other _ _ _ _ h]

/-- Category-map lookup after the whole item fold: the bucket of a key is the
`stepFull` fold over the items of that category, created on first use. -/
theorem lookup_processItems :
    ∀ (items : List CycleItem) (st : AggState) (k : String),
    mapLookup ((items.foldl processItem st).categoryMap) k =
      (match mapLookup st.categoryMap k with
       | some a => some (catFold a (items.filter (fun it => it.category == k)))
       | none =>
         match items.filter (fun it => it.category == k) with
         | [] => none
         | it0 :: rest2 => some (catFold (stepFull { category := k } it0) rest2)) := by
  intro items
  induction items with
  | nil =>
    intro st k
    cases h : mapLookup st.categoryMap k <;> simp [h, catFold]
  | cons it rest ih =>
    intro st k
    simp only [List.foldl_cons]
    rw [ih (processItem st it) k, lookup_processItem]
    by_cases h : it.category = k
    · rw [if_pos h]
      have hf : (it :: rest).filter (fun it => it.category == k) =
          it :: rest.filter (fun it => it.category == k) := by
        simp [List.filter_cons, h]
      rw [hf]
      cases h0 : mapLookup st.categoryMap k with
      | some a => simp [h0, catFold]
      | none => simp [h0, catFold]
    · rw [if_neg h]
      have hf : (it :: rest).filter (fun it => it.category == k) =
          rest.filter (fun it => it.category == k) := by
        simp [List.filter_cons, h]
      rw [hf]

/-- Field changes of one `stepFull` step: the flags latch on a failing
critical/warning item and the row is appended. -/
theorem stepFull_fields (a : CategoryAgg) (it : CycleItem) :
    (stepFull a it).category = a.category ∧
    (stepFull a it).criticalFailing =
      (a.criticalFailing || (!it.ready && it.severity == "critical")) ∧
    (stepFull a it).warningFailing =
      (a.warningFailing || (!it.ready && it.severity == "warning")) ∧
    (stepFull a it).checks = a.checks ++ [it.row] := by
  unfold stepFull aggStepCategory
  by_cases hr : it.ready
  · simp [hr]
  · by_cases hc : it.severity = "critical"
    · simp [hr, hc]
    · by_cases hw : it.severity = "warning"
      · simp [hr, hc, hw]
      · simp [hr, hc, hw]

/-- The category fold over a list of items: the flags become existential
checks over the items and the rows are appended in order. -/
theorem catFold_spec :
    ∀ (its : List CycleItem) (a : CategoryAgg),
    (catFold a its).category = a.category ∧
    (catFold a its).criticalFailing =
      (a.criticalFailing || its.any (fun it => !it.ready && it.severity == "critical")) ∧
    (catFold a its).warningFailing =
      (a.warningFailing || its.any (fun it => !it.ready && it.severity == "warning")) ∧
    (catFold a its).checks = a.checks ++ its.map (fun it => it.row) := by
  intro its
  induction its with
  | nil => intro a; simp [catFold]
  | cons it rest ih =>
    intro a
    have h1 := ih (stepFull a it)
    have h2 := stepFull_fields a it
    simp only [catFold, List.foldl_cons] at h1 ⊢
    refine ⟨h1.1.trans h2.1, ?_, ?_, ?_⟩
    · rw [h1.2.1, h2.2.1, List.any_cons, Bool.or_assoc]
    · rw [h1.2.2.1, h2.2.2.1, List.any_cons, Bool.or_assoc]
    · rw [h1.2.2.2, h2.2.2.2, List.map_cons]
      simp

/-- Keys present after `updateCat` were present before or are the updated
key. -/
theorem mem_keys_updateCat (cat k1 : String) (f : CategoryAgg → CategoryAgg) :
    ∀ (m : List (String × CategoryAgg)),
    k1 ∈ (updateCat m cat f).map Prod.fst → k1 ∈ m.map Prod.fst ∨ k1 = cat := by
  intro m
  induction m with
  | nil => simp [updateCat]
  | cons p rest ih =>
    obtain ⟨a, b⟩ := p
    by_cases ha : a = cat
    · subst ha
      have hu : updateCat ((a, b) :: rest) a f = (a, f b) :: rest := by
        simp [updateCat]
      rw [hu]
      simp only [List.map_cons, List.mem_cons]
      tauto
    · intro h
      simp only [updateCat, if_neg ha, List.map_cons, List.mem_cons] at h
      rcases h with h | h
      · exact Or.inl (by simp [h])
      · rcases ih h with h2 | h2
        · exact Or.inl (by simp [h2])
        · exact Or.inr h2

/-- `updateCat` preserves distinctness of the category-map keys. -/
theorem nodupKeys_updateCat (cat : String) (f : CategoryAgg → CategoryAgg) :
    ∀ (m : List (String × CategoryAgg)),
    (m.map Prod.fst).Nodup → ((updateCat m cat f).map Prod.fst).Nodup := by
  intro m
  induction m with
  | nil => intro _; simp [updateCat]
  | cons p rest ih =>
    obtain ⟨a, b⟩ := p
    intro h
    simp only [List.map_cons, List.nodup_cons] at h
    by_cases ha : a = cat
    · subst ha
      have hu : updateCat ((a, b) :: rest) a f = (a, f b) :: rest := by
        simp [updateCat]
      rw [hu]
      simp only [List.map_cons, List.nodup_cons]
      exact h
    · simp only [updateCat, if_neg ha, List.map_cons, List.nodup_cons]
      refine ⟨?_, ih h.2⟩
      intro hmem
      rcases mem_keys_updateCat cat a f rest hmem with h2 | h2
      · exact h.1 h2
      · exact ha h2

/-- The item fold preserves distinctness of the category-map keys. -/
theorem nodupKeys_processItems :
    ∀ (items : List CycleItem) (st : AggState),
    (st.categoryMap.map Prod.fst).Nodup →
    (((items.foldl processItem st).categoryMap).map Prod.fst).Nodup := by
  intro items
  induction items with
  | nil => intro st h; exact h
  | cons it rest ih =>
    intro st h
    simp only [List.foldl_cons]
    apply ih
    unfold processItem appendCatCheck aggregateCheck
    exact nodupKeys_updateCat _ _ _ (nodupKeys_updateCat _ _ _ h)

/-- In a map with distinct keys, membership determines the lookup. -/
theorem lookup_of_mem_nodup {α : Type} (p : String × α) :
    ∀ (m : List (String × α)), (m.map Prod.fst).Nodup → p ∈ m →
    mapLookup m p.1 = some p.2 := by
  intro m
  induction m with
  | nil => intro _ hp; simp at hp
  | cons q rest ih =>
    obtain ⟨a, b⟩ := q
    intro hnd hp
    simp only [List.map_cons, List.nodup_cons] at hnd
    rcases List.mem_cons.mp hp with h | h
    · rw [h]
      simp [mapLookup]
    · have hak : ¬a = p.1 := by
        intro hak
        apply hnd.1
        rw [hak]
        exact List.mem_map.mpr ⟨p, h, rfl⟩
      simp only [mapLookup, if_neg hak]
      exact ih hnd.2 h

/-- Membership in the insertion step of the sort. -/
theorem mem_insertSorted {α : Type} (le : α → α → Bool) (x a : α) :
    ∀ (l : List α), a ∈ insertSorted le x l ↔ a = x ∨ a ∈ l := by
  intro l
  induction l with
  | nil => simp [insertSorted]
  | cons y ys ih =>
    unfold insertSorted
    split
    · simp
    · rw [List.mem_cons, ih]
      simp only [List.mem_cons]
      tauto

/-- The sort is membership-preserving. -/
theorem mem_sortBy {α : Type} (le : α → α → Bool) (a : α) :
    ∀ (l : List α), a ∈ sortBy le l ↔ a ∈ l := by
  intro l
  induction l with
  | nil => simp [sortBy]
  | cons x xs ih =>
    simp only [sortBy, List.foldr_cons] at ih ⊢
    rw [mem_insertSorted, ih, List.mem_cons]

/-- Membership in the published category list. -/
theorem mem_buildCategories (m : List (String × CategoryAgg)) (c : CategoryStatus) :
    c ∈ buildCategories m ↔ ∃ p ∈ m, c = buildCategory p.2 := by
  unfold buildCategories
  rw [mem_sortBy]
  simp only [List.mem_map]
  constructor
  · rintro ⟨p, hp, rfl⟩
    exact ⟨p, hp, rfl⟩
  · rintro ⟨p, hp, rfl⟩
    exact ⟨p, hp, rfl⟩

/-- Every item of a cycle stores its severity in its row and is ready exactly
when its row's status is `Passing`. -/
theorem cycleItems_rows (cr : ClusterReadiness) (rcs : List ResolvedCheck)
    (exec : ResolvedCheck → CheckResult) (now : Int) :
    ∀ it ∈ cycleItems cr rcs exec now,
      it.severity = it.row.severity ∧ it.ready = (it.row.status == "Passing") := by
  intro it hit
  unfold cycleItems at hit
  rcases List.mem_append.mp hit with h | h
  · rcases List.mem_map.mp h with ⟨res, _, rfl⟩
    unfold freshItem
    cases he : res.err with
    | some e => simp [he]
    | none => cases hr : res.resultReady <;> simp [he, hr]
  · rcases List.mem_map.mp h with ⟨cs, _, rfl⟩
    exact ⟨rfl, rfl⟩

/-- Health-state rule of the driver, characterised against the summary
counters, assuming the passing tally is bounded by the total tally. -/
theorem healthStateOf_iff (s : ReadinessSummary) (hle : s.criticalPassing ≤ s.criticalTotal) :
    (healthStateOf s = "Unhealthy" ↔ s.criticalPassing < s.criticalTotal) ∧
    (healthStateOf s = "Degraded" ↔
      (s.criticalPassing = s.criticalTotal ∧ 0 < s.warningFailing)) ∧
    (healthStateOf s = "Healthy" ↔
      (¬(s.criticalPassing < s.criticalTotal) ∧
        ¬(s.criticalPassing = s.criticalTotal ∧ 0 < s.warningFailing))) := by
  by_cases h1 : s.criticalTotal = s.criticalPassing
  · by_cases h2 : 0 < s.warningFailing
    · have hs : healthStateOf s = "Degraded" := by simp [healthStateOf, h1, h2]
      rw [hs]
      refine ⟨⟨?_, ?_⟩, ⟨?_, ?_⟩, ⟨?_, ?_⟩⟩
      · intro hx; exact absurd hx (by decide)
      · intro hx; omega
      · intro _; exact ⟨by omega, h2⟩
      · intro _; rfl
      · intro hx; exact absurd hx (by decide)
      · intro hx; exact absurd ⟨by omega, h2⟩ hx.2
    · have hs : healthStateOf s = "Healthy" := by simp [healthStateOf, h1, h2]
      rw [hs]
      refine ⟨⟨?_, ?_⟩, ⟨?_, ?_⟩, ⟨?_, ?_⟩⟩
      · intro hx; exact absurd hx (by decide)
      · intro hx; omega
      · intro hx; exact absurd hx (by decide)
      · intro hx; exact absurd hx.2 h2
      · intro _; exact ⟨by omega, fun hy => h2 hy.2⟩
      · intro _; rfl
  · have hs : healthStateOf s = "Unhealthy" := by simp [healthStateOf, h1]
    rw [hs]
    refine ⟨⟨?_, ?_⟩, ⟨?_, ?_⟩, ⟨?_, ?_⟩⟩
    · intro _; omega
    · intro _; rfl
    · intro hx; exact absurd hx (by decide)
    · intro hx; exact absurd hx.1 (by omega)
    · intro hx; exact absurd hx (by decide)
    · intro hx; exact absurd (by omega : s.criticalPassing < s.criticalTotal) hx.1

/-- The latch flags of a bucket whose rows reflect severity and readiness are
equivalent to row-level existential checks. -/
theorem flags_of_filtered (items : List CycleItem) (agg : CategoryAgg)
    (hrows : ∀ it ∈ items,
      it.severity = it.row.severity ∧ it.ready = (it.row.status == "Passing"))
    (hcf : agg.criticalFailing = items.any (fun it => !it.ready && it.severity == "critical"))
    (hwf : agg.warningFailing = items.any (fun it => !it.ready && it.severity == "warning"))
    (hchecks : agg.checks = items.map (fun it => it.row)) :
    (agg.criticalFailing = true ↔
      ∃ row ∈ agg.checks, row.severity = "critical" ∧ row.status ≠ "Passing") ∧
    (agg.warningFailing = true ↔
      ∃ row ∈ agg.checks, row.severity = "warning" ∧ row.status ≠ "Passing") := by
  have hgen : ∀ sevLit : String,
      (items.any (fun it => !it.ready && it.severity == sevLit) = true ↔
        ∃ row ∈ items.map (fun it => it.row),
          row.severity = sevLit ∧ row.status ≠ "Passing") := by
    intro sevLit
    rw [List.any_eq_true]
    constructor
    · rintro ⟨it, hit, hp⟩
      obtain ⟨hs, hr⟩ := hrows it hit
      simp only [Bool.and_eq_true, Bool.not_eq_eq_eq_not, Bool.not_true, beq_iff_eq] at hp
      refine ⟨it.row, List.mem_map_of_mem _ hit, ?_, ?_⟩
      · rw [← hs]; exact hp.2
      · intro hst
        rw [hp.1] at hr
        rw [hst] at hr
        simp at hr
    · rintro ⟨row, hrow, hsev, hst⟩
      rcases List.mem_map.mp hrow with ⟨it, hit, rfl⟩
      obtain ⟨hs, hr⟩ := hrows it hit
      refine ⟨it, hit, ?_⟩
      simp only [Bool.and_eq_true, Bool.not_eq_eq_eq_not, Bool.not_true, beq_iff_eq]
      refine ⟨?_, hs.trans hsev⟩
      rw [hr]
      simp [hst]
  rw [hcf, hwf, hchecks]
  exact ⟨hgen "critical", hgen "warning"⟩

/-- The published state of a category whose flags match its rows satisfies
the two-level rule at the row level. -/
theorem category_state_iff (agg : CategoryAgg)
    (hcrit : agg.criticalFailing = true ↔
      ∃ row ∈ agg.checks, row.severity = "critical" ∧ row.status ≠ "Passing")
    (hwarn : agg.warningFailing = true ↔
      ∃ row ∈ agg.checks, row.severity = "warning" ∧ row.status ≠ "Passing") :
    ((buildCategory agg).state = "Unhealthy" ↔
      ∃ row ∈ (buildCategory agg).checks,
        row.severity = "critical" ∧ row.status ≠ "Passing") ∧
    ((buildCategory agg).state = "Degraded" ↔
      ((¬∃ row ∈ (buildCategory agg).checks,
          row.severity = "critical" ∧ row.status ≠ "Passing") ∧
        ∃ row ∈ (buildCategory agg).checks,
          row.severity = "warning" ∧ row.status ≠ "Passing")) ∧
    ((buildCategory agg).state = "Healthy" ↔
      ((¬∃ row ∈ (buildCategory agg).checks,
          row.severity = "critical" ∧ row.status ≠ "Passing") ∧
        (¬∃ row ∈ (buildCategory agg).checks,
          row.severity = "warning" ∧ row.status ≠ "Passing"))) := by
  have hsame : ∀ sevLit : String,
      ((∃ row ∈ (buildCategory agg).checks, row.severity = sevLit ∧ row.status ≠ "Passing") ↔
        ∃ row ∈ agg.checks, row.severity = sevLit ∧ row.status ≠ "Passing") := by
    intro sevLit
    constructor
    · rintro ⟨row, hrow, hp⟩
      exact ⟨row, (mem_sortBy _ row agg.checks).mp hrow, hp⟩
    · rintro ⟨row, hrow, hp⟩
      exact ⟨row, (mem_sortBy _ row agg.checks).mpr hrow, hp⟩
  have hstate : (buildCategory agg).state = catStateOf agg := rfl
  rw [hstate, hsame, hsame, ← hcrit, ← hwarn]
  unfold catStateOf
  cases f1 : agg.criticalFailing <;> cases f2 : agg.warningFailing <;> simp

/-- Claim C1: after every successful reconciliation, the published verdict
satisfies the two-level health rule over all status rows (fresh and carried)
of the cycle: the cluster state is Unhealthy iff `criticalPassing <
criticalTotal`, Degraded iff all criticals pass and some warning fails,
Healthy otherwise (the summary counters being the tallies over the cycle's
rows), and each published category is Unhealthy iff some critical row in it
fails, else Degraded iff some warning row in it fails, else Healthy. -/
theorem c1_health_rule (cr : ClusterReadiness) (db : String → Option GateProfile)
    (exec : ResolvedCheck → CheckResult) (now : Int) (rcs : List ResolvedCheck)
    (h : resolveChecks db cr.spec (effectiveInterval cr.spec) = .ok rcs) :
    ∃ s, (reconcile cr db exec now).status.summary = some s ∧
      ((reconcile cr db exec now).status.state = "Unhealthy" ↔
        s.criticalPassing < s.criticalTotal) ∧
      ((reconcile cr db exec now).status.state = "Degraded" ↔
        (s.criticalPassing = s.criticalTotal ∧ 0 < s.warningFailing)) ∧
      ((reconcile cr db exec now).status.state = "Healthy" ↔
        (¬(s.criticalPassing < s.criticalTotal) ∧
          ¬(s.criticalPassing = s.criticalTotal ∧ 0 < s.warningFailing))) ∧
      s.criticalTotal =
        (cycleItems cr rcs exec now).countP (fun it => it.severity == "critical") ∧
      s.criticalPassing =
        (cycleItems cr rcs exec now).countP
          (fun it => it.severity == "critical" && it.ready) ∧
      s.warningFailing =
        (cycleItems cr rcs exec now).countP
          (fun it => it.severity == "warning" && !it.ready) ∧
      (∀ c ∈ (reconcile cr db exec now).status.categories,
        ((c.state = "Unhealthy") ↔
          ∃ row ∈ c.checks, row.severity = "critical" ∧ row.status ≠ "Passing") ∧
        ((c.state = "Degraded") ↔
          ((¬∃ row ∈ c.checks, row.severity = "critical" ∧ row.status ≠ "Passing") ∧
            ∃ row ∈ c.checks, row.severity = "warning" ∧ row.status ≠ "Passing")) ∧
        ((c.state = "Healthy") ↔
          ((¬∃ row ∈ c.checks, row.severity = "critical" ∧ row.status ≠ "Passing") ∧
            (¬∃ row ∈ c.checks, row.severity = "warning" ∧ row.status ≠ "Passing")))) := by
  have hrec : reconcile cr db exec now = reconcileHappy cr rcs exec now := by
    unfold reconcile; rw [h]
  rw [hrec]
  have hsproj : (reconcileHappy cr rcs exec now).status.summary =
      some (processItems (cycleItems cr rcs exec now)).summary := rfl
  have hstate : (reconcileHappy cr rcs exec now).status.state =
      healthStateOf (processItems (cycleItems cr rcs exec now)).summary := rfl
  have hcats : (reconcileHappy cr rcs exec now).status.categories =
      buildCategories (processItems (cycleItems cr rcs exec now)).categoryMap := rfl
  have hsum := processItems_summary (cycleItems cr rcs exec now) {}
  have hct : (processItems (cycleItems cr rcs exec now)).summary.criticalTotal =
      (cycleItems cr rcs exec now).countP (fun it => it.severity == "critical") := by
    have := hsum.2.2.2.1
    simpa [processItems] using this
  have hcp : (processItems (cycleItems cr rcs exec now)).summary.criticalPassing =
      (cycleItems cr rcs exec now).countP (fun it => it.severity == "critical" && it.ready) := by
    have := hsum.2.2.2.2.1
    simpa [processItems] using this
  have hwf : (processItems (cycleItems cr rcs exec now)).summary.warningFailing =
      (cycleItems cr rcs exec now).countP (fun it => it.severity == "warning" && !it.ready) := by
    have := hsum.2.2.2.2.2.2
    simpa [processItems] using this
  have hle : (processItems (cycleItems cr rcs exec now)).summary.criticalPassing ≤
      (processItems (cycleItems cr rcs exec now)).summary.criticalTotal := by
    rw [hcp, hct]
    exact countP_and_le (cycleItems cr rcs exec now) (fun it => it.severity == "critical")
      (fun it => it.ready)
  obtain ⟨hu, hd, hh⟩ := healthStateOf_iff (processItems (cycleItems cr rcs exec now)).summary hle
  refine ⟨(processItems (cycleItems cr rcs exec now)).summary, hsproj,
    by rw [hstate]; exact hu, by rw [hstate]; exact hd, by rw [hstate]; exact hh,
    hct, hcp, hwf, ?_⟩
  intro c hc
  rw [hcats] at hc
  rcases (mem_buildCategories _ c).mp hc with ⟨p, hp, rfl⟩
  have hnd : (((processItems (cycleItems cr rcs exec now)).categoryMap).map Prod.fst).Nodup := by
    have := nodupKeys_processItems (cycleItems cr rcs exec now) {} (by simp)
    simpa [processItems] using this
  have hlk : mapLookup (processItems (cycleItems cr rcs exec now)).categoryMap p.1 =
      some p.2 := lookup_of_mem_nodup p _ hnd hp
  have hchar := lookup_processItems (cycleItems cr rcs exec now) {} p.1
  rw [show mapLookup (({} : AggState)).categoryMap p.1 = none from rfl] at hchar
  have hchar2 : mapLookup (processItems (cycleItems cr rcs exec now)).categoryMap p.1 =
      (match (cycleItems cr rcs exec now).filter (fun it => it.category == p.1) with
       | [] => none
       | it0 :: rest2 => some (catFold (stepFull { category := p.1 } it0) rest2)) := hchar
  cases hfilter : (cycleItems cr rcs exec now).filter (fun it => it.category == p.1) with
  | nil =>
    rw [hfilter] at hchar2
    rw [hlk] at hchar2
    exact absurd hchar2 (by simp)
  | cons it0 rest2 =>
    rw [hfilter] at hchar2
    rw [hlk] at hchar2
    have hagg : p.2 = catFold (stepFull { category := p.1 } it0) rest2 := by
      injection hchar2
    have hspec := catFold_spec rest2 (stepFull { category := p.1 } it0)
    have hsf := stepFull_fields { category := p.1 } it0
    have hcf2 : p.2.criticalFailing =
        (it0 :: rest2).any (fun it => !it.ready && it.severity == "critical") := by
      rw [hagg, hspec.2.1, hsf.2.1, List.any_cons]
      simp
    have hwf2 : p.2.warningFailing =
        (it0 :: rest2).any (fun it => !it.ready && it.severity == "warning") := by
      rw [hagg, hspec.2.2.1, hsf.2.2.1, List.any_cons]
      simp
    have hchecks : p.2.checks = (it0 :: rest2).map (fun it => it.row) := by
      rw [hagg, hspec.2.2.2, hsf.2.2.2, List.map_cons]
      simp
    have hrows : ∀ it ∈ (it0 :: rest2),
        it.severity = it.row.severity ∧ it.ready = (it.row.status == "Passing") := by
      intro it hit
      rw [← hfilter] at hit
      exact cycleItems_rows cr rcs exec now it (List.mem_of_mem_filter hit)
    obtain ⟨hcrit, hwarn⟩ := flags_of_filtered (it0 :: rest2) p.2 hrows hcf2 hwf2 hchecks
    exact category_state_iff p.2 hcrit hwarn

/-- Witness for C1 at a concrete passing cycle. -/
theorem c1_health_rule_witness :
    (reconcile crSimple dbEmpty execPass 5).status.state = "Healthy" := by
  obtain ⟨s, hs, _, _, hh2, _⟩ := c1_health_rule crSimple dbEmpty execPass 5
    [resolveInlineCheck { name := "dns" } defaultInterval] rfl
  apply hh2.mpr
  have hsum : (reconcile crSimple dbEmpty execPass 5).status.summary =
      some { total := 1, passing := 1, failing := 0, criticalTotal := 1,
             criticalPassing := 1, warningTotal := 0, warningFailing := 0 } := by
    decide
  rw [hsum] at hs
  injection hs with hs2
  rw [← hs2]
  exact ⟨by decide, by decide⟩

/-- Claim C5 is contradicted by the code: a successful reconciliation with a
single passing critical check publishes state `Healthy` and a summary with
all criticals passing, yet writes NO conditions at all — in particular no
`Ready` and no `Degraded` condition. -/
theorem c5_no_conditions_written :
    (reconcile crSimple dbEmpty execPass 5).err = none ∧
    (reconcile crSimple dbEmpty execPass 5).status.state = "Healthy" ∧
    (reconcile crSimple dbEmpty execPass 5).status.summary =
      some { total := 1, passing := 1, failing := 0, criticalTotal := 1,
             criticalPassing := 1, warningTotal := 0, warningFailing := 0 } ∧
    (reconcile crSimple dbEmpty execPass 5).status.conditions = [] := by
  decide

end ClusterGate
